import Mathlib

/-! Registry reconciliation of `internal/manager/commands.go`.

A shallow embedding of `AddTokenToTokenListJSON`, `getAssetInfo`, `createLogo`,
`CreateAssetInfoJSONTemplateNew` and `handleAsyncTokenList`.

* Go `error` results, a runtime panic and `log.Fatal` are the four cases of `Result`.
* The files the functions touch are the three stores of `FS`, keyed by path.
* The external packages (`path`, `coin`, `config`, `libFile`, `image`, `time`, `http`) are
  the fields of `Lib` (pure helpers) and `World` (calls that may fail).
* Go `int` is `GoInt` (64 bit, wrapping); `uint(x)` is `toUint`.
-/

namespace Manager

/-! ## Machine integers -/

/-- Go `int` on a 64-bit target: an integer in `[-2^63, 2^63 - 1]`. -/
structure GoInt where
  val : Int
  lo : -9223372036854775808 ≤ val
  hi : val ≤ 9223372036854775807
  deriving DecidableEq

/-- Two's-complement wrap of an integer into the range of `int`. -/
def wrapInt (x : Int) : Int :=
  (x + 9223372036854775808) % 18446744073709551616 - 9223372036854775808

/-- The `int` that an exact integer result wraps to. -/
def GoInt.ofInt (x : Int) : GoInt :=
  ⟨wrapInt x, by unfold wrapInt; omega, by unfold wrapInt; omega⟩

/-- Go `a + b` on `int`: signed overflow wraps. -/
def GoInt.add (a b : GoInt) : GoInt := GoInt.ofInt (a.val + b.val)

/-- Go conversion `uint(x)` of an `int`: the value modulo `2^64`. -/
def toUint (x : GoInt) : Nat := (x.val % 18446744073709551616).toNat

/-! ## Data model -/

/-- Type `path.TokenListType`. -/
inductive TokenListType where
  | TokenlistDefault
  | TokenlistExtended
  deriving DecidableEq, Repr

/-- Type `coin.Coin`, the fields read by the manager. -/
structure Coin where
  ID : Nat
  Handle : String
  Name : String
  deriving DecidableEq

/-- Type `tokenlist.Token`, the fields set by the manager; `Decimals` is a `uint`. -/
structure Token where
  Asset : String
  Type_ : String
  Address : String
  Name : String
  Symbol : String
  Decimals : Nat
  LogoURI : String
  deriving DecidableEq

/-- Type `tokenlist.Version`. -/
structure Version where
  Major : GoInt
  deriving DecidableEq

/-- Type `tokenlist.Model`. -/
structure Model where
  Name : String
  LogoURI : String
  Timestamp : String
  Tokens : List Token
  Version : Version
  deriving DecidableEq

/-- Type `info.Link`; a nil pointer is `none`. -/
structure Link where
  Name : Option String
  URL : Option String
  deriving DecidableEq

/-- Type `info.AssetModel`, the fields used by the manager; a nil pointer is `none`. -/
structure AssetModel where
  Name : Option String
  Type_ : Option String
  Symbol : Option String
  Decimals : Option GoInt
  Website : Option String
  Explorer : Option String
  Status : Option String
  ID : Option String
  Links : List Link
  Tags : List String
  deriving DecidableEq

/-- Type `RemoteAsset`; an `originLogoURI` key that is absent decodes to `""`. -/
structure RemoteAsset where
  ChainID : GoInt
  Address : String
  Name : String
  Symbol : String
  Decimals : GoInt
  LogoURI : String
  OriginLogoURI : String
  deriving DecidableEq

/-- What a Go call leaves behind: `nil`, a returned `error`, a runtime panic,
or `log.Fatal` (the process exits). -/
inductive Result where
  | ok
  | error (msg : String)
  | panic
  | fatal (msg : String)
  deriving DecidableEq

/-- Outcome of a call that yields a value or an error: `libFile.ReadJSONFile` into a value
of type `α`, the request of the feed, the request of an image. -/
inductive Read (α : Type) where
  | ok (value : α)
  | error (msg : String)
  deriving DecidableEq

/-- The files of the registry, each store keyed by path: what `ReadJSONFile` yields for a
token list path, what it yields for an `info.json` path, and the image at a logo path. -/
structure FS where
  tokenlist : String → Read Model
  info : String → Read AssetModel
  logo : String → Option String

/-- The values `config.Default` holds once `setup()` has loaded the configuration. -/
structure Config where
  AssetsApp : String
  Logo : String
  TimeFormat : String

/-- The pure helpers of the external packages `path` and `coin`. The two variants of a
chain are two files: that is the one contract of `path.GetTokenListPath` used here. -/
structure Lib where
  GetTokenListPath : String → TokenListType → String
  GetAssetInfoPath : String → String → String
  GetAssetLogoPath : String → String → String
  GetAssetLogoURL : String → String → String → String
  Coins : Nat → Option Coin
  variants_distinct : ∀ handle : String,
    GetTokenListPath handle TokenListType.TokenlistDefault ≠
      GetTokenListPath handle TokenListType.TokenlistExtended

/-- What a failed `libFile.CreateJSONFile` leaves at its path: the file as it was, a file
that no longer decodes (with what reading it reports), or the new record all the same. -/
inductive Aftermath where
  | untouched
  | broken (readErr : String)
  | stored

/-- A failed `libFile.CreateJSONFile`: the error returned and the state of the file. -/
structure WriteFailure where
  err : String
  after : Aftermath

/-- The calls that reach outside the process, with their outcome for each argument. -/
structure World where
  cfg : Config
  /-- Call `time.Now().Format(layout)`. -/
  Now : String → String
  /-- Call `libFile.CreateJSONFile(path, _)`; `none` is success. -/
  CreateJSONFile : String → Option WriteFailure
  /-- The GET of the feed and its decoding into `[]RemoteAsset`. -/
  Get : String → Read (List RemoteAsset)
  /-- Call `res.Body.Close()`; `none` is success. -/
  CloseBody : String → Option String
  /-- Call `libFile.CreateDirPath(path)`; `none` is success. -/
  CreateDirPath : String → Option String
  /-- Call `image.CreatePNGFromURL(url, path)`: the image stored, or the error. -/
  CreatePNGFromURL : String → String → Read String
  /-- Call `libFile.CreateFileWithPath(path)`; `none` is success. -/
  CreateFileWithPath : String → Option String
  /-- Call `f.Write(bytes)` on the file at the path; `none` is success. -/
  Write : String → Option String
  /-- Call `libFile.FormatJSONFile(path)`; `none` is success. -/
  FormatJSONFile : String → Option String
  /-- Call `f.Close()` on the file at the path; `none` is success. -/
  Close : String → Option String
  /-- What `ReadJSONFile` reports on a file that was created and holds no bytes yet. -/
  EmptyFile : String

/-! ## `AddTokenToTokenListJSON` -/

/-- The value `coin.Coins[id]`: a Go map lookup, the zero `Coin` when the key is absent. -/
def coinOf (lib : Lib) (id : Nat) : Coin :=
  match lib.Coins id with
  | some c => c
  | none => { ID := 0, Handle := "", Name := "" }

/-- Lines 101-105: `for _, item := range list.Tokens { if item.Asset == assetID ... }`. -/
def hasAsset (assetID : String) : List Token → Bool
  | [] => false
  | item :: rest => if item.Asset = assetID then true else hasAsset assetID rest

/-- Lines 92-106: the duplicate scan over the given variants; `some msg` is the error
the function returns with, `none` means the loop ran to its end. -/
def checkDuplicates (lib : Lib) (fs : FS) (chain : Coin) (assetID : String) :
    List TokenListType → Option String
  | [] => none
  | t :: rest =>
    let tokenListPath := lib.GetTokenListPath chain.Handle t
    match fs.tokenlist tokenListPath with
    | Read.error err => some ("failed to read data from " ++ tokenListPath ++ ": " ++ err)
    | Read.ok list =>
      if hasAsset assetID list.Tokens then
        some ("duplicate asset, already exist in " ++ tokenListPath)
      else checkDuplicates lib fs chain assetID rest

/-- Lines 141-151: `getAssetInfo`. -/
def getAssetInfo (lib : Lib) (fs : FS) (chain : Coin) (tokenID : String) : Read AssetModel :=
  let assetInfoPath := lib.GetAssetInfoPath chain.Handle tokenID
  match fs.info assetInfoPath with
  | Read.error err => Read.error ("failed to read data from info.json: " ++ err)
  | Read.ok assetModel => Read.ok assetModel

/-- The call `libFile.CreateJSONFile(path, payload)` on the token list store. -/
def CreateJSONFile (w : World) (fs : FS) (path : String) (payload : Model) : Result × FS :=
  match w.CreateJSONFile path with
  | none =>
    (Result.ok, { fs with tokenlist := fun p => if p = path then Read.ok payload else fs.tokenlist p })
  | some f =>
    (Result.error f.err,
      match f.after with
      | Aftermath.untouched => fs
      | Aftermath.broken e =>
        { fs with tokenlist := fun p => if p = path then Read.error e else fs.tokenlist p }
      | Aftermath.stored =>
        { fs with tokenlist := fun p => if p = path then Read.ok payload else fs.tokenlist p })

/-- Lines 87-139: `AddTokenToTokenListJSON`. The configuration that `setup()` loads
(line 88) is `w.cfg`. The five dereferences of lines 123-127 panic on a nil pointer. The
result of `libFile.CreateJSONFile` is the result of the call. -/
def AddTokenToTokenListJSON (lib : Lib) (w : World) (fs : FS) (chain : Coin)
    (assetID tokenID : String) (tokenListType : TokenListType) : Result × FS :=
  match checkDuplicates lib fs chain assetID
      [TokenListType.TokenlistDefault, TokenListType.TokenlistExtended] with
  | some msg => (Result.error msg, fs)
  | none =>
    let tokenListPath := lib.GetTokenListPath chain.Handle tokenListType
    match fs.tokenlist tokenListPath with
    | Read.error err =>
      (Result.error ("failed to read data from " ++ tokenListPath ++ ": " ++ err), fs)
    | Read.ok list =>
      match getAssetInfo lib fs chain tokenID with
      | Read.error err => (Result.error ("failed to get token info: " ++ err), fs)
      | Read.ok assetInfo =>
        match assetInfo.Type_, assetInfo.ID, assetInfo.Name, assetInfo.Symbol,
            assetInfo.Decimals with
        | some type, some id, some name, some symbol, some decimals =>
          let newToken : Token :=
            { Asset := assetID
              Type_ := type
              Address := id
              Name := name
              Symbol := symbol
              Decimals := toUint decimals
              LogoURI := lib.GetAssetLogoURL w.cfg.AssetsApp chain.Handle tokenID }
          let tokens := list.Tokens ++ [newToken]
          CreateJSONFile w fs tokenListPath
            { Name := "Trust Wallet: " ++ (coinOf lib chain.ID).Name
              LogoURI := w.cfg.Logo
              Timestamp := w.Now w.cfg.TimeFormat
              Tokens := tokens
              Version := { Major := GoInt.add list.Version.Major (GoInt.ofInt 1) } }
        | _, _, _, _, _ => (Result.panic, fs)

/-! ## Remote ingestion: `createLogo`, `CreateAssetInfoJSONTemplateNew`, `handleAsyncTokenList` -/

/-- The calls of a run that leave the process, in the order they are made. -/
inductive Event where
  | getAssetInfo (path : String)
  | CreateDirPath (path : String)
  | CreatePNGFromURL (url path : String)
  | CreateFileWithPath (path : String)
  | Write (path : String)
  | FormatJSONFile (path : String)
  | Close (path : String)
  | Println (line : String)
  deriving DecidableEq

/-- The registry files together with the calls made so far. -/
structure State where
  fs : FS
  trace : List Event

/-- Record one more call. -/
def State.emit (st : State) (e : Event) : State :=
  { st with trace := st.trace ++ [e] }

/-- Replace what reading the `info.json` at `path` yields. -/
def State.setInfo (st : State) (path : String) (r : Read AssetModel) : State :=
  { st with fs := { st.fs with info := fun p => if p = path then r else st.fs.info p } }

/-- Store an image at the logo path. -/
def State.setLogo (st : State) (path : String) (png : String) : State :=
  { st with fs := { st.fs with logo := fun p => if p = path then some png else st.fs.logo p } }

/-- Lines 163-171: `createLogo`. The URL handed to `image.CreatePNGFromURL` is
`a.OriginLogoURI`; `a.LogoURI` is not read. -/
def createLogo (w : World) (st : State) (assetLogoPath : String) (a : RemoteAsset) :
    Result × State :=
  let st1 := st.emit (Event.CreateDirPath assetLogoPath)
  match w.CreateDirPath assetLogoPath with
  | some err => (Result.error err, st1)
  | none =>
    let st2 := st1.emit (Event.CreatePNGFromURL a.OriginLogoURI assetLogoPath)
    match w.CreatePNGFromURL a.OriginLogoURI assetLogoPath with
    | Read.error err => (Result.error err, st2)
    | Read.ok png => (Result.ok, st2.setLogo assetLogoPath png)

/-- Lines 180-196: the record `CreateAssetInfoJSONTemplateNew` builds for a candidate. -/
def assetInfoModel (token : RemoteAsset) : AssetModel :=
  { Name := some token.Name
    Type_ := some "coin"
    Symbol := some token.Symbol
    Decimals := some token.Decimals
    Website := some ""
    Explorer := some ""
    Status := some ""
    ID := some token.Address
    Links := [{ Name := some "", URL := some "" }]
    Tags := [""] }

/-- Lines 217-227: what runs between the creation of the file and the deferred close. -/
def writeAndFormat (w : World) (st : State) (assetInfoPath : String) (token : RemoteAsset) :
    Result × State :=
  let st1 := st.emit (Event.Write assetInfoPath)
  match w.Write assetInfoPath with
  | some _ => (Result.error "failed to write bytes to file", st1)
  | none =>
    let st2 := (st1.setInfo assetInfoPath (Read.ok (assetInfoModel token))).emit
      (Event.FormatJSONFile assetInfoPath)
    match w.FormatJSONFile assetInfoPath with
    | some _ => (Result.error "failed to format json file", st2)
    | none => (Result.ok, st2)

/-- Lines 173-228: `CreateAssetInfoJSONTemplateNew`. `json.Marshal` of the record has no
failing case. The logo is created first (line 202) and an error there returns before the
file is created; the deferred `f.Close()` runs on every return after line 206 and ends the
process through `log.Fatal` when it fails. -/
def CreateAssetInfoJSONTemplateNew (lib : Lib) (w : World) (st : State) (chain : Coin)
    (token : RemoteAsset) : Result × State :=
  let assetInfoPath := lib.GetAssetInfoPath chain.Handle token.Address
  let asseLogoPath := lib.GetAssetLogoPath chain.Handle token.Address
  match createLogo w st asseLogoPath token with
  | (Result.ok, st1) =>
    let st2 := st1.emit (Event.CreateFileWithPath assetInfoPath)
    match w.CreateFileWithPath assetInfoPath with
    | some err => (Result.error ("failed to create file: " ++ err), st2)
    | none =>
      let body := writeAndFormat w (st2.setInfo assetInfoPath (Read.error w.EmptyFile))
        assetInfoPath token
      let st3 := body.2.emit (Event.Close assetInfoPath)
      match w.Close assetInfoPath with
      | some err => (Result.fatal err, st3)
      | none => (body.1, st3)
  | (createLogoErr, st1) => (createLogoErr, st1)

/-- Lines 274-284: the loop over the candidates. `fmt.Println` puts a blank between its
operands. A creation that neither returns nil nor an error is `log.Fatal` of the deferred
close: the process exits and the run ends there. -/
def rangeAssets (lib : Lib) (w : World) (chain : Nat) : List RemoteAsset → State → Result × State
  | [], st => (Result.ok, st)
  | a :: rest, st =>
    let st1 := st.emit (Event.getAssetInfo (lib.GetAssetInfoPath (coinOf lib chain).Handle a.Address))
    match getAssetInfo lib st1.fs (coinOf lib chain) a.Address with
    | Read.error _ =>
      match CreateAssetInfoJSONTemplateNew lib w st1 (coinOf lib chain) a with
      | (Result.ok, st2) => rangeAssets lib w chain rest st2
      | (Result.error err, st2) =>
        rangeAssets lib w chain rest
          (st2.emit (Event.Println ("Create file failed:  " ++ a.Address ++ " " ++ err)))
      | (r, st2) => (r, st2)
    | Read.ok _ =>
      rangeAssets lib w chain rest
        (st1.emit (Event.Println ("Create info.json succeed for:  " ++ a.Address)))

/-- Lines 274-286: the loop followed by `fmt.Println(len(assets))`. -/
def ingestAssets (lib : Lib) (w : World) (chain : Nat) (assets : List RemoteAsset) (st : State) :
    Result × State :=
  match rangeAssets lib w chain assets st with
  | (Result.ok, st1) => (Result.ok, st1.emit (Event.Println (toString assets.length)))
  | (r, st1) => (r, st1)

/-- Lines 239-287: `handleAsyncTokenList`. Every failure of the request, of reading the
body and of decoding it is `log.Fatal`; the deferred `Body.Close()` runs last. -/
def handleAsyncTokenList (lib : Lib) (w : World) (st : State) (chain : Nat) (url : String) :
    Result × State :=
  match w.Get url with
  | Read.error err => (Result.fatal err, st)
  | Read.ok assets =>
    match ingestAssets lib w chain assets st with
    | (Result.ok, st1) =>
      match w.CloseBody url with
      | some err => (Result.fatal err, st1)
      | none => (Result.ok, st1)
    | (r, st1) => (r, st1)

/-! ## Observations used by the statements -/

/-- The asset identifiers of the entries of a variant's list; none when it cannot be read. -/
def assetsIn (lib : Lib) (fs : FS) (chain : Coin) (t : TokenListType) : List String :=
  match fs.tokenlist (lib.GetTokenListPath chain.Handle t) with
  | Read.ok list => list.Tokens.map Token.Asset
  | Read.error _ => []

/-- How often an asset identifier occurs in the default and the extended list together. -/
def occurrences (lib : Lib) (fs : FS) (chain : Coin) (assetID : String) : Nat :=
  (assetsIn lib fs chain TokenListType.TokenlistDefault).count assetID +
    (assetsIn lib fs chain TokenListType.TokenlistExtended).count assetID

/-- One invocation of `AddTokenToTokenListJSON` on a chain: its arguments and the world
it runs in. -/
structure Call where
  w : World
  assetID : String
  tokenID : String
  tokenListType : TokenListType

/-- The registry after a sequence of invocations on one chain, each run to its end
(success, error or panic) before the next starts. -/
def runCalls (lib : Lib) (chain : Coin) : FS → List Call → FS
  | fs, [] => fs
  | fs, c :: rest =>
    runCalls lib chain
      (AddTokenToTokenListJSON lib c.w fs chain c.assetID c.tokenID c.tokenListType).2 rest

/-- The lines written by `fmt.Println`, in order. -/
def printed (trace : List Event) : List String :=
  trace.filterMap fun e =>
    match e with
    | Event.Println line => some line
    | _ => none

/-- The URLs handed to `image.CreatePNGFromURL`, in order. -/
def fetched (trace : List Event) : List String :=
  trace.filterMap fun e =>
    match e with
    | Event.CreatePNGFromURL url _ => some url
    | _ => none

/-- The `info.json` paths looked up by the loop of `handleAsyncTokenList`, in order. -/
def visited (trace : List Event) : List String :=
  trace.filterMap fun e =>
    match e with
    | Event.getAssetInfo path => some path
    | _ => none

/-- The line printed for a candidate whose record is found. -/
def knownLine (a : RemoteAsset) : String := "Create info.json succeed for:  " ++ a.Address

/-- The line printed for a candidate whose creation returned the error `err`. -/
def failedLine (a : RemoteAsset) (err : String) : String :=
  "Create file failed:  " ++ a.Address ++ " " ++ err

/-- The calls of a run over candidates that are all found: one lookup and one line each,
and no call that creates or changes a file. -/
def knownTrace (lib : Lib) (chain : Nat) (assets : List RemoteAsset) : List Event :=
  assets.flatMap fun a =>
    [Event.getAssetInfo (lib.GetAssetInfoPath (coinOf lib chain).Handle a.Address),
      Event.Println (knownLine a)]

/-- The logo source in the words of the specification: the override URL if one is
supplied, else the primary source URL. -/
def specLogoSource (a : RemoteAsset) : String :=
  if a.OriginLogoURI = "" then a.LogoURI else a.OriginLogoURI

/-- A fresh process on the files a previous run left. -/
def freshRun (fs : FS) : State := { fs := fs, trace := [] }

/-- The paths handed to the deferred `f.Close()`, in order: the record files that were
created. -/
def closed (trace : List Event) : List String :=
  trace.filterMap fun e =>
    match e with
    | Event.Close path => some path
    | _ => none

/-- The lines owed for a candidate that is reached with the files `fs`: the found line when
its record is read; when it is not, the failure line with the candidate's address and the
error if `CreateAssetInfoJSONTemplateNew` returns an error, and no line if it returns nil. -/
def owedLines (lib : Lib) (w : World) (chain : Nat) (fs : FS) (a : RemoteAsset) : List String :=
  match getAssetInfo lib fs (coinOf lib chain) a.Address with
  | Read.ok _ => [knownLine a]
  | Read.error _ =>
    match (CreateAssetInfoJSONTemplateNew lib w (freshRun fs) (coinOf lib chain) a).1 with
    | Result.error err => [failedLine a err]
    | _ => []

/-- The files a candidate leaves when it is reached with the files `fs`: the same files
when its record is read, else the files `CreateAssetInfoJSONTemplateNew` leaves. -/
def filesAfter (lib : Lib) (w : World) (chain : Nat) (fs : FS) (a : RemoteAsset) : FS :=
  match getAssetInfo lib fs (coinOf lib chain) a.Address with
  | Read.ok _ => fs
  | Read.error _ =>
    (CreateAssetInfoJSONTemplateNew lib w (freshRun fs) (coinOf lib chain) a).2.fs

/-- The lines owed for a feed: those of each candidate in turn, each reached with the
files the candidates before it have left. -/
def owedReport (lib : Lib) (w : World) (chain : Nat) : List RemoteAsset → FS → List String
  | [], _ => []
  | a :: rest, fs =>
    owedLines lib w chain fs a ++ owedReport lib w chain rest (filesAfter lib w chain fs a)

/-! ## Concrete registries and worlds -/

/-- A path library with the layout `<handle>/tokenlist.json`, `<handle>/assets/<address>/...`. -/
def demoLib : Lib where
  GetTokenListPath := fun handle t =>
    match t with
    | TokenListType.TokenlistDefault => handle ++ "/tokenlist.json"
    | TokenListType.TokenlistExtended => handle ++ "/tokenlist-extended.json"
  GetAssetInfoPath := fun handle token => handle ++ "/assets/" ++ token ++ "/info.json"
  GetAssetLogoPath := fun handle token => handle ++ "/assets/" ++ token ++ "/logo.png"
  GetAssetLogoURL := fun base handle token =>
    base ++ "/" ++ handle ++ "/assets/" ++ token ++ "/logo.png"
  Coins := fun id =>
    if id = 60 then some { ID := 60, Handle := "ethereum", Name := "Ethereum" } else none
  variants_distinct := fun handle heq => by
    have hdata := congrArg String.data heq
    simp only [String.data_append] at hdata
    exact absurd (List.append_cancel_left hdata) (by decide)

/-- The chain of the examples. -/
def ethereum : Coin := { ID := 60, Handle := "ethereum", Name := "Ethereum" }

/-- The `int` with the value of a natural number literal. -/
def int (n : Nat) : GoInt := GoInt.ofInt n

/-- The largest `int`. -/
def maxInt : GoInt := ⟨9223372036854775807, by decide, by decide⟩

/-- A token list with the given entries and version. -/
def listOf (tokens : List Token) (major : GoInt) : Model :=
  { Name := "Trust Wallet: Ethereum", LogoURI := "https://logo.example/l.png",
    Timestamp := "2023-12-31", Tokens := tokens, Version := { Major := major } }

/-- The entry of the asset `c60_t0xDEAD`. -/
def deadToken : Token :=
  { Asset := "c60_t0xDEAD", Type_ := "ERC20", Address := "0xDEAD", Name := "Dead",
    Symbol := "DEAD", Decimals := 6,
    LogoURI := "https://assets.example/ethereum/assets/0xDEAD/logo.png" }

/-- The record `AssetInfo` with type coin, id 0xABC, name Foo, symbol FOO, decimals 18. -/
def fooInfo : AssetModel :=
  { Name := some "Foo", Type_ := some "coin", Symbol := some "FOO", Decimals := some (int 18),
    Website := some "", Explorer := some "", Status := some "", ID := some "0xABC",
    Links := [], Tags := [] }

/-- A record whose `type` key is absent: `Type` decodes to a nil pointer. -/
def untypedInfo : AssetModel :=
  { Name := some "Nil", Type_ := none, Symbol := some "NIL", Decimals := some (int 18),
    Website := some "", Explorer := some "", Status := some "", ID := some "0xNIL",
    Links := [], Tags := [] }

/-- The `info.json` files of the examples: `0xABC` is complete, `0xNIL` lacks `type`. -/
def demoInfo (p : String) : Read AssetModel :=
  if p = "ethereum/assets/0xABC/info.json" then Read.ok fooInfo
  else if p = "ethereum/assets/0xNIL/info.json" then Read.ok untypedInfo
  else Read.error "open: no such file or directory"

/-- A registry whose two ethereum lists hold the given records. -/
def registry (dflt extended : Read Model) : FS where
  tokenlist := fun p =>
    if p = "ethereum/tokenlist.json" then dflt
    else if p = "ethereum/tokenlist-extended.json" then extended
    else Read.error "open: no such file or directory"
  info := demoInfo
  logo := fun _ => none

/-- Default list empty at version 3, extended list empty at version 7. -/
def demoFS : FS := registry (Read.ok (listOf [] (int 3))) (Read.ok (listOf [] (int 7)))

/-- Default list at version 3, extended list holding `c60_t0xDEAD`. -/
def deadExtendedFS : FS :=
  registry (Read.ok (listOf [] (int 3))) (Read.ok (listOf [deadToken] (int 7)))

/-- Default list not readable, extended list holding `c60_t0xDEAD`. -/
def brokenDefaultFS : FS :=
  registry (Read.error "unexpected end of JSON input") (Read.ok (listOf [deadToken] (int 7)))

/-- Default list at the largest version an `int` holds. -/
def maxVersionFS : FS := registry (Read.ok (listOf [] maxInt)) (Read.ok (listOf [] (int 7)))

/-- A candidate with an override logo URL. -/
def newAsset : RemoteAsset :=
  { ChainID := int 1, Address := "0xNEW", Name := "New", Symbol := "NEW", Decimals := int 18,
    LogoURI := "https://cdn.example/0xNEW.png",
    OriginLogoURI := "https://origin.example/new.png" }

/-- A candidate without an override logo URL. -/
def twoAsset : RemoteAsset :=
  { ChainID := int 1, Address := "0xTWO", Name := "Two", Symbol := "TWO", Decimals := int 8,
    LogoURI := "https://cdn.example/0xTWO.png", OriginLogoURI := "" }

/-- The feed of the examples. -/
def demoFeed : List RemoteAsset := [newAsset, twoAsset]

/-- A world in which no call fails; the image stored for a URL is the URL itself. -/
def calmWorld : World where
  cfg := { AssetsApp := "https://assets.example", Logo := "https://logo.example/l.png",
           TimeFormat := "2006-01-02" }
  Now := fun _ => "2024-01-01"
  CreateJSONFile := fun _ => none
  Get := fun _ => Read.ok demoFeed
  CloseBody := fun _ => none
  CreateDirPath := fun _ => none
  CreatePNGFromURL := fun url _ => Read.ok url
  CreateFileWithPath := fun _ => none
  Write := fun _ => none
  FormatJSONFile := fun _ => none
  Close := fun _ => none
  EmptyFile := "unexpected end of JSON input"

/-- A world in which no image can be fetched. -/
def offlineWorld : World :=
  { calmWorld with CreatePNGFromURL := fun _ _ => Read.error "no route to host" }

/-- A world in which an image is fetched only from a URL that is not empty. -/
def strictWorld : World :=
  { calmWorld with
    CreatePNGFromURL := fun url _ =>
      if url = "" then Read.error "unsupported protocol scheme" else Read.ok url }

/-- A world in which `libFile.CreateJSONFile` reports an error after the record has
reached the file. -/
def lateErrorWorld : World :=
  { calmWorld with
    CreateJSONFile := fun _ =>
      some { err := "sync: input/output error", after := Aftermath.stored } }

/-- Five invocations: a first insertion, the same identifier again for the other
variant, a record without `type`, a second identifier, and a third one whose write
reports an error. -/
def demoCalls : List Call :=
  [ { w := calmWorld, assetID := "c60_t0xABC", tokenID := "0xABC",
      tokenListType := TokenListType.TokenlistDefault },
    { w := calmWorld, assetID := "c60_t0xABC", tokenID := "0xABC",
      tokenListType := TokenListType.TokenlistExtended },
    { w := calmWorld, assetID := "c60_t0xNIL", tokenID := "0xNIL",
      tokenListType := TokenListType.TokenlistExtended },
    { w := calmWorld, assetID := "c60_t0xFOO", tokenID := "0xABC",
      tokenListType := TokenListType.TokenlistExtended },
    { w := lateErrorWorld, assetID := "c60_t0xBAR", tokenID := "0xABC",
      tokenListType := TokenListType.TokenlistDefault } ]

/-- A world in which closing the record of `0xNEW` fails. -/
def closeFailWorld : World :=
  { calmWorld with
    Close := fun p => if p = "ethereum/assets/0xNEW/info.json" then some "close: input/output error" else none }

/-! ## Lemmas on the duplicate scan -/

theorem hasAsset_eq_true_iff (assetID : String) (tokens : List Token) :
    hasAsset assetID tokens = true ↔ ∃ item ∈ tokens, item.Asset = assetID := by
  induction tokens with
  | nil => simp [hasAsset]
  | cons item rest ih =>
    by_cases h : item.Asset = assetID
    · simp [hasAsset, h]
    · simp [hasAsset, h, ih]

theorem hasAsset_eq_false_iff (assetID : String) (tokens : List Token) :
    hasAsset assetID tokens = false ↔ ∀ item ∈ tokens, item.Asset ≠ assetID := by
  rw [← Bool.not_eq_true, hasAsset_eq_true_iff]
  simp

theorem hasAsset_eq_false_iff_not_mem (assetID : String) (tokens : List Token) :
    hasAsset assetID tokens = false ↔ assetID ∉ tokens.map Token.Asset := by
  rw [hasAsset_eq_false_iff]
  simp only [List.mem_map, not_exists, not_and]

/-- The scan over both variants ends without an error exactly when both lists are read and
neither holds the identifier. -/
theorem checkDuplicates_eq_none_iff (lib : Lib) (fs : FS) (chain : Coin) (assetID : String) :
    checkDuplicates lib fs chain assetID
        [TokenListType.TokenlistDefault, TokenListType.TokenlistExtended] = none ↔
      ∃ d e,
        fs.tokenlist (lib.GetTokenListPath chain.Handle TokenListType.TokenlistDefault) = Read.ok d ∧
        fs.tokenlist (lib.GetTokenListPath chain.Handle TokenListType.TokenlistExtended) = Read.ok e ∧
        hasAsset assetID d.Tokens = false ∧ hasAsset assetID e.Tokens = false := by
  simp only [checkDuplicates]
  constructor
  · intro h
    split at h
    · exact absurd h (by simp)
    · rename_i d hd
      split at h
      · exact absurd h (by simp)
      · rename_i hnd
        split at h
        · exact absurd h (by simp)
        · rename_i e he
          split at h
          · exact absurd h (by simp)
          · rename_i hne
            exact ⟨d, e, hd, he, by simpa using hnd, by simpa using hne⟩
  · rintro ⟨d, e, hd, he, hnd, hne⟩
    simp [hd, he, hnd, hne]

/-! ## Duplicate rejection -/

/-- C1 (as amended): if the default list can be read and the identifier occurs as the
`asset` of an entry of the default list or of the extended list, then for either target
variant `AddTokenToTokenListJSON` returns the duplicate-asset error naming a list that
holds the identifier (the default list whenever it occurs there), and the files are left
exactly as they were. -/
theorem addToken_rejects_duplicate (lib : Lib) (w : World) (fs : FS) (chain : Coin)
    (assetID tokenID : String) (tokenListType : TokenListType) (d : Model)
    (hd : fs.tokenlist (lib.GetTokenListPath chain.Handle TokenListType.TokenlistDefault) =
      Read.ok d)
    (hdup : (∃ item ∈ d.Tokens, item.Asset = assetID) ∨
      ∃ e, fs.tokenlist (lib.GetTokenListPath chain.Handle TokenListType.TokenlistExtended) =
          Read.ok e ∧ ∃ item ∈ e.Tokens, item.Asset = assetID) :
    ∃ t m,
      fs.tokenlist (lib.GetTokenListPath chain.Handle t) = Read.ok m ∧
      (∃ item ∈ m.Tokens, item.Asset = assetID) ∧
      ((∃ item ∈ d.Tokens, item.Asset = assetID) → t = TokenListType.TokenlistDefault) ∧
      AddTokenToTokenListJSON lib w fs chain assetID tokenID tokenListType =
        (Result.error
          ("duplicate asset, already exist in " ++ lib.GetTokenListPath chain.Handle t), fs) := by
  by_cases hin : ∃ item ∈ d.Tokens, item.Asset = assetID
  · refine ⟨TokenListType.TokenlistDefault, d, hd, hin, fun _ => rfl, ?_⟩
    have hT : hasAsset assetID d.Tokens = true := (hasAsset_eq_true_iff _ _).2 hin
    simp [AddTokenToTokenListJSON, checkDuplicates, hd, hT]
  · rcases hdup with h | ⟨e, he, hine⟩
    · exact absurd h hin
    · refine ⟨TokenListType.TokenlistExtended, e, he, hine, fun h => absurd h hin, ?_⟩
      have hF : hasAsset assetID d.Tokens = false := by
        rw [← Bool.not_eq_true, hasAsset_eq_true_iff]; exact hin
      have hT : hasAsset assetID e.Tokens = true := (hasAsset_eq_true_iff _ _).2 hine
      simp [AddTokenToTokenListJSON, checkDuplicates, hd, he, hF, hT]

/-- The scenario of C1: `c60_t0xDEAD` sits in the extended list and is added to the
default list. -/
theorem addToken_rejects_duplicate_witness :
    ∃ t m,
      deadExtendedFS.tokenlist (demoLib.GetTokenListPath ethereum.Handle t) = Read.ok m ∧
      (∃ item ∈ m.Tokens, item.Asset = "c60_t0xDEAD") ∧
      ((∃ item ∈ (listOf [] (int 3)).Tokens, item.Asset = "c60_t0xDEAD") →
        t = TokenListType.TokenlistDefault) ∧
      AddTokenToTokenListJSON demoLib calmWorld deadExtendedFS ethereum "c60_t0xDEAD" "0xDEAD"
          TokenListType.TokenlistDefault =
        (Result.error
          ("duplicate asset, already exist in " ++ demoLib.GetTokenListPath ethereum.Handle t),
          deadExtendedFS) :=
  addToken_rejects_duplicate demoLib calmWorld deadExtendedFS ethereum "c60_t0xDEAD" "0xDEAD"
    TokenListType.TokenlistDefault (listOf [] (int 3)) (by decide)
    (Or.inr ⟨listOf [deadToken] (int 7), by decide, deadToken, by decide, by decide⟩)

/-- C1 as stated fails: the identifier occurs in the extended list, the default list
cannot be read, and the call returns the read failure of the default list, not a
duplicate-asset error. -/
theorem duplicate_hidden_by_unreadable_default :
    (∃ e, brokenDefaultFS.tokenlist
        (demoLib.GetTokenListPath ethereum.Handle TokenListType.TokenlistExtended) = Read.ok e ∧
      ∃ item ∈ e.Tokens, item.Asset = "c60_t0xDEAD") ∧
    (AddTokenToTokenListJSON demoLib calmWorld brokenDefaultFS ethereum "c60_t0xDEAD" "0xDEAD"
        TokenListType.TokenlistDefault).1 =
      Result.error
        "failed to read data from ethereum/tokenlist.json: unexpected end of JSON input" ∧
    ∀ t, (AddTokenToTokenListJSON demoLib calmWorld brokenDefaultFS ethereum "c60_t0xDEAD"
        "0xDEAD" TokenListType.TokenlistDefault).1 ≠
      Result.error
        ("duplicate asset, already exist in " ++ demoLib.GetTokenListPath ethereum.Handle t) := by
  refine ⟨⟨listOf [deadToken] (int 7), by decide, deadToken, by decide, by decide⟩,
    by decide, ?_⟩
  intro t
  cases t <;> decide

/-! ## Missing asset info -/

/-- C5: when both token lists are read and neither holds the identifier, and the
`info.json` of the token address cannot be read, `AddTokenToTokenListJSON` returns the
error "failed to get token info: ..." and leaves every file as it was. -/
theorem addToken_missing_info (lib : Lib) (w : World) (fs : FS) (chain : Coin)
    (assetID tokenID : String) (tokenListType : TokenListType) (d e : Model) (err : String)
    (hd : fs.tokenlist (lib.GetTokenListPath chain.Handle TokenListType.TokenlistDefault) =
      Read.ok d)
    (he : fs.tokenlist (lib.GetTokenListPath chain.Handle TokenListType.TokenlistExtended) =
      Read.ok e)
    (hnd : ∀ item ∈ d.Tokens, item.Asset ≠ assetID)
    (hne : ∀ item ∈ e.Tokens, item.Asset ≠ assetID)
    (hinfo : fs.info (lib.GetAssetInfoPath chain.Handle tokenID) = Read.error err) :
    AddTokenToTokenListJSON lib w fs chain assetID tokenID tokenListType =
      (Result.error
        ("failed to get token info: " ++ ("failed to read data from info.json: " ++ err)),
        fs) := by
  have hscan := (checkDuplicates_eq_none_iff lib fs chain assetID).2
    ⟨d, e, hd, he, (hasAsset_eq_false_iff _ _).2 hnd, (hasAsset_eq_false_iff _ _).2 hne⟩
  cases tokenListType <;>
    simp [AddTokenToTokenListJSON, hscan, hd, he, getAssetInfo, hinfo]

/-- C5 on the example registry: no `info.json` exists for `0xNONE`. -/
theorem addToken_missing_info_witness :
    AddTokenToTokenListJSON demoLib calmWorld demoFS ethereum "c60_t0xNONE" "0xNONE"
        TokenListType.TokenlistExtended =
      (Result.error
        ("failed to get token info: " ++
          ("failed to read data from info.json: " ++ "open: no such file or directory")),
        demoFS) :=
  addToken_missing_info demoLib calmWorld demoFS ethereum "c60_t0xNONE" "0xNONE"
    TokenListType.TokenlistExtended (listOf [] (int 3)) (listOf [] (int 7))
    "open: no such file or directory" (by decide) (by decide)
    (by simp [listOf]) (by simp [listOf]) (by decide)

/-! ## Absent fields of the asset info -/

/-- C10 fails on the code: with readable lists that hold no duplicate and an `info.json`
whose `type` is absent, line 123 dereferences the nil pointer and the call panics; it
returns neither success nor an error, and nothing is written. -/
theorem addToken_panics_on_absent_type :
    demoFS.info (demoLib.GetAssetInfoPath ethereum.Handle "0xNIL") = Read.ok untypedInfo ∧
    untypedInfo.Type_ = none ∧
    (AddTokenToTokenListJSON demoLib calmWorld demoFS ethereum "c60_t0xNIL" "0xNIL"
        TokenListType.TokenlistDefault).1 = Result.panic := by
  refine ⟨by decide, by decide, by decide⟩


theorem getAssetInfo_eq_ok_iff (lib : Lib) (fs : FS) (chain : Coin) (tokenID : String)
    (info : AssetModel) :
    getAssetInfo lib fs chain tokenID = Read.ok info ↔
      fs.info (lib.GetAssetInfoPath chain.Handle tokenID) = Read.ok info := by
  unfold getAssetInfo
  cases h : fs.info (lib.GetAssetInfoPath chain.Handle tokenID) <;> simp [h]

/-- What a successful call has read and what it leaves: both lists were read without the
identifier, every dereferenced field was present, and the target path holds the new record. -/
theorem addToken_ok_inv (lib : Lib) (w : World) (fs : FS) (chain : Coin)
    (assetID tokenID : String) (tokenListType : TokenListType)
    (hok : (AddTokenToTokenListJSON lib w fs chain assetID tokenID tokenListType).1 = Result.ok) :
    ∃ d e list info type id name symbol decimals,
      fs.tokenlist (lib.GetTokenListPath chain.Handle TokenListType.TokenlistDefault) = Read.ok d ∧
      fs.tokenlist (lib.GetTokenListPath chain.Handle TokenListType.TokenlistExtended) = Read.ok e ∧
      hasAsset assetID d.Tokens = false ∧ hasAsset assetID e.Tokens = false ∧
      fs.tokenlist (lib.GetTokenListPath chain.Handle tokenListType) = Read.ok list ∧
      fs.info (lib.GetAssetInfoPath chain.Handle tokenID) = Read.ok info ∧
      info.Type_ = some type ∧ info.ID = some id ∧ info.Name = some name ∧
      info.Symbol = some symbol ∧ info.Decimals = some decimals ∧
      (AddTokenToTokenListJSON lib w fs chain assetID tokenID tokenListType).2 =
        { fs with
          tokenlist := fun p =>
            if p = lib.GetTokenListPath chain.Handle tokenListType then
              Read.ok
                { Name := "Trust Wallet: " ++ (coinOf lib chain.ID).Name
                  LogoURI := w.cfg.Logo
                  Timestamp := w.Now w.cfg.TimeFormat
                  Tokens := list.Tokens ++
                    [{ Asset := assetID, Type_ := type, Address := id, Name := name,
                       Symbol := symbol, Decimals := toUint decimals,
                       LogoURI := lib.GetAssetLogoURL w.cfg.AssetsApp chain.Handle tokenID }]
                  Version := { Major := GoInt.add list.Version.Major (GoInt.ofInt 1) } }
            else fs.tokenlist p } := by
  unfold AddTokenToTokenListJSON at hok ⊢
  cases hscan : checkDuplicates lib fs chain assetID
      [TokenListType.TokenlistDefault, TokenListType.TokenlistExtended] with
  | some msg => simp [hscan] at hok
  | none =>
    obtain ⟨d, e, hd, he, hnd, hne⟩ := (checkDuplicates_eq_none_iff lib fs chain assetID).1 hscan
    cases hlist : fs.tokenlist (lib.GetTokenListPath chain.Handle tokenListType) with
    | error err => simp [hscan, hlist] at hok
    | ok list =>
      cases hget : getAssetInfo lib fs chain tokenID with
      | error err => simp [hscan, hlist, hget] at hok
      | ok info =>
        have hinfo := (getAssetInfo_eq_ok_iff lib fs chain tokenID info).1 hget
        rcases info with ⟨name, type, symbol, decimals, website, explorer, status, id, links, tags⟩
        cases type <;> cases id <;> cases name <;> cases symbol <;> cases decimals <;>
          simp [hscan, hlist, hget] at hok
        rename_i type id name symbol decimals
        cases hw : w.CreateJSONFile (lib.GetTokenListPath chain.Handle tokenListType) with
        | some f => simp [CreateJSONFile, hw] at hok
        | none =>
          refine ⟨d, e, list, _, type, id, name, symbol, decimals, hd, he, hnd, hne, rfl, hinfo,
            rfl, rfl, rfl, rfl, rfl, ?_⟩
          simp [hscan, hlist, hget, CreateJSONFile, hw]
theorem tokenListPath_ne (lib : Lib) (handle : String) (s t : TokenListType) (h : s ≠ t) :
    lib.GetTokenListPath handle s ≠ lib.GetTokenListPath handle t := by
  cases s <;> cases t
  · exact absurd rfl h
  · exact lib.variants_distinct handle
  · exact fun heq => lib.variants_distinct handle heq.symm
  · exact absurd rfl h

theorem wrapInt_succ (m : GoInt) (h : m.val < 9223372036854775807) :
    (GoInt.add m (GoInt.ofInt 1)).val = m.val + 1 := by
  have hlo := m.lo
  have h1 : wrapInt 1 = 1 := by decide
  simp only [GoInt.add, GoInt.ofInt, h1]
  unfold wrapInt
  omega

theorem toUint_of_nonneg (x : GoInt) (h : 0 ≤ x.val) : ((toUint x : Nat) : Int) = x.val := by
  have hhi := x.hi
  unfold toUint
  rw [Int.toNat_of_nonneg (by omega)]
  omega

/-! ## Version advance -/

/-- C2 (as amended): for every successful `AddTokenToTokenListJSON` on a variant whose
`version.major` read before the call is below the largest `int` (2^63 - 1), the major
written is the major read plus exactly 1, and the sibling variant reads after the call
exactly as before. -/
theorem addToken_bumps_version (lib : Lib) (w : World) (fs : FS) (chain : Coin)
    (assetID tokenID : String) (tokenListType : TokenListType) (list : Model)
    (hok : (AddTokenToTokenListJSON lib w fs chain assetID tokenID tokenListType).1 = Result.ok)
    (hlist : fs.tokenlist (lib.GetTokenListPath chain.Handle tokenListType) = Read.ok list)
    (hmax : list.Version.Major.val < 9223372036854775807) :
    (∃ written,
      (AddTokenToTokenListJSON lib w fs chain assetID tokenID tokenListType).2.tokenlist
          (lib.GetTokenListPath chain.Handle tokenListType) = Read.ok written ∧
      written.Version.Major.val = list.Version.Major.val + 1) ∧
    ∀ sibling, sibling ≠ tokenListType →
      (AddTokenToTokenListJSON lib w fs chain assetID tokenID tokenListType).2.tokenlist
          (lib.GetTokenListPath chain.Handle sibling) =
        fs.tokenlist (lib.GetTokenListPath chain.Handle sibling) := by
  obtain ⟨d, e, list2, info, type, id, name, symbol, decimals, -, -, -, -, hlist2, -, -, -, -,
    -, -, hfs⟩ := addToken_ok_inv lib w fs chain assetID tokenID tokenListType hok
  rw [hlist] at hlist2
  cases hlist2
  rw [hfs]
  refine ⟨⟨_, if_pos rfl, ?_⟩, ?_⟩
  · exact wrapInt_succ _ hmax
  · intro sibling hne
    exact if_neg (tokenListPath_ne lib chain.Handle sibling tokenListType hne)

/-- The scenario of C2: the default list at version 3 ends at version 4 and the extended
list reads as before. -/
theorem addToken_bumps_version_witness :
    (∃ written,
      (AddTokenToTokenListJSON demoLib calmWorld demoFS ethereum "c60_t0xABC" "0xABC"
          TokenListType.TokenlistDefault).2.tokenlist
          (demoLib.GetTokenListPath ethereum.Handle TokenListType.TokenlistDefault) =
        Read.ok written ∧
      written.Version.Major.val = (listOf [] (int 3)).Version.Major.val + 1) ∧
    (AddTokenToTokenListJSON demoLib calmWorld demoFS ethereum "c60_t0xABC" "0xABC"
        TokenListType.TokenlistDefault).2.tokenlist
        (demoLib.GetTokenListPath ethereum.Handle TokenListType.TokenlistExtended) =
      demoFS.tokenlist (demoLib.GetTokenListPath ethereum.Handle TokenListType.TokenlistExtended) :=
  (fun h => ⟨h.1, h.2 TokenListType.TokenlistExtended (by decide)⟩)
    (addToken_bumps_version demoLib calmWorld demoFS ethereum "c60_t0xABC" "0xABC"
      TokenListType.TokenlistDefault (listOf [] (int 3)) (by decide) (by decide) (by decide))

/-- C2 as stated fails: a default list at `version.major` 9223372036854775807 is read, the
call succeeds, and the major written is -9223372036854775808, not the major read plus 1. -/
theorem version_wraps_at_largest_int :
    (AddTokenToTokenListJSON demoLib calmWorld maxVersionFS ethereum "c60_t0xABC" "0xABC"
        TokenListType.TokenlistDefault).1 = Result.ok ∧
    ∃ before after,
      maxVersionFS.tokenlist
          (demoLib.GetTokenListPath ethereum.Handle TokenListType.TokenlistDefault) =
        Read.ok before ∧
      (AddTokenToTokenListJSON demoLib calmWorld maxVersionFS ethereum "c60_t0xABC" "0xABC"
          TokenListType.TokenlistDefault).2.tokenlist
          (demoLib.GetTokenListPath ethereum.Handle TokenListType.TokenlistDefault) =
        Read.ok after ∧
      before.Version.Major.val = 9223372036854775807 ∧
      after.Version.Major.val = -9223372036854775808 ∧
      after.Version.Major.val ≠ before.Version.Major.val + 1 := by
  refine ⟨by decide, listOf [] maxInt, ?_⟩
  refine ⟨{ Name := "Trust Wallet: Ethereum", LogoURI := "https://logo.example/l.png",
            Timestamp := "2024-01-01",
            Tokens := [{ Asset := "c60_t0xABC", Type_ := "coin", Address := "0xABC",
                         Name := "Foo", Symbol := "FOO", Decimals := 18,
                         LogoURI := "https://assets.example/ethereum/assets/0xABC/logo.png" }],
            Version := { Major := GoInt.ofInt (-9223372036854775808) } },
    by decide, by decide, by decide, by decide, by decide⟩

/-! ## Derivation of the new entry -/

/-- C4: for every successful `AddTokenToTokenListJSON` whose `info.json` has type, id,
name, symbol present and decimals not negative, the tokens written to the target variant
are the tokens read from it, unchanged and in the same order, followed by one entry with
the given asset identifier, the type, name, symbol and decimals of the record, its id as
address, and the logo URL of (assets-app URL, chain handle, token address). -/
theorem addToken_appends_entry (lib : Lib) (w : World) (fs : FS) (chain : Coin)
    (assetID tokenID : String) (tokenListType : TokenListType) (list : Model)
    (info : AssetModel) (type id name symbol : String) (decimals : GoInt)
    (hok : (AddTokenToTokenListJSON lib w fs chain assetID tokenID tokenListType).1 = Result.ok)
    (hlist : fs.tokenlist (lib.GetTokenListPath chain.Handle tokenListType) = Read.ok list)
    (hinfo : fs.info (lib.GetAssetInfoPath chain.Handle tokenID) = Read.ok info)
    (htype : info.Type_ = some type) (hid : info.ID = some id) (hname : info.Name = some name)
    (hsymbol : info.Symbol = some symbol) (hdecimals : info.Decimals = some decimals)
    (hnonneg : 0 ≤ decimals.val) :
    ∃ written entry,
      (AddTokenToTokenListJSON lib w fs chain assetID tokenID tokenListType).2.tokenlist
          (lib.GetTokenListPath chain.Handle tokenListType) = Read.ok written ∧
      written.Tokens = list.Tokens ++ [entry] ∧
      entry.Asset = assetID ∧ entry.Type_ = type ∧ entry.Address = id ∧ entry.Name = name ∧
      entry.Symbol = symbol ∧ (entry.Decimals : Int) = decimals.val ∧
      entry.LogoURI = lib.GetAssetLogoURL w.cfg.AssetsApp chain.Handle tokenID := by
  obtain ⟨d, e, list2, info2, type2, id2, name2, symbol2, decimals2, -, -, -, -, hlist2, hinfo2,
    htype2, hid2, hname2, hsymbol2, hdecimals2, hfs⟩ :=
    addToken_ok_inv lib w fs chain assetID tokenID tokenListType hok
  rw [hlist] at hlist2
  cases hlist2
  rw [hinfo] at hinfo2
  cases hinfo2
  rw [htype] at htype2
  rw [hid] at hid2
  rw [hname] at hname2
  rw [hsymbol] at hsymbol2
  rw [hdecimals] at hdecimals2
  cases htype2
  cases hid2
  cases hname2
  cases hsymbol2
  cases hdecimals2
  rw [hfs]
  exact ⟨_, _, if_pos rfl, rfl, rfl, rfl, rfl, rfl, rfl, toUint_of_nonneg _ hnonneg, rfl⟩

/-- The example of C4: the record of `0xABC` (coin, Foo, FOO, 18 decimals) appended to the
empty default list. -/
theorem addToken_appends_entry_witness :
    ∃ written entry,
      (AddTokenToTokenListJSON demoLib calmWorld demoFS ethereum "c60_t0xABC" "0xABC"
          TokenListType.TokenlistDefault).2.tokenlist
          (demoLib.GetTokenListPath ethereum.Handle TokenListType.TokenlistDefault) =
        Read.ok written ∧
      written.Tokens = (listOf [] (int 3)).Tokens ++ [entry] ∧
      entry.Asset = "c60_t0xABC" ∧ entry.Type_ = "coin" ∧ entry.Address = "0xABC" ∧
      entry.Name = "Foo" ∧ entry.Symbol = "FOO" ∧ (entry.Decimals : Int) = (int 18).val ∧
      entry.LogoURI =
        demoLib.GetAssetLogoURL calmWorld.cfg.AssetsApp ethereum.Handle "0xABC" :=
  addToken_appends_entry demoLib calmWorld demoFS ethereum "c60_t0xABC" "0xABC"
    TokenListType.TokenlistDefault (listOf [] (int 3)) fooInfo "coin" "0xABC" "Foo" "FOO"
    (int 18) (by decide) (by decide) (by decide) rfl rfl rfl rfl rfl (by decide)


/-! ## Uniqueness across the two variants -/

theorem assetsIn_of_ok (lib : Lib) (fs : FS) (chain : Coin) (t : TokenListType) (m : Model)
    (h : fs.tokenlist (lib.GetTokenListPath chain.Handle t) = Read.ok m) :
    assetsIn lib fs chain t = m.Tokens.map Token.Asset := by
  simp [assetsIn, h]

theorem assetsIn_update_self (lib : Lib) (fs : FS) (chain : Coin) (t : TokenListType)
    (r : Read Model) :
    assetsIn lib
        { fs with
          tokenlist := fun p =>
            if p = lib.GetTokenListPath chain.Handle t then r else fs.tokenlist p }
        chain t =
      match r with
      | Read.ok list => list.Tokens.map Token.Asset
      | Read.error _ => [] := by
  simp [assetsIn]

theorem assetsIn_update_other (lib : Lib) (fs : FS) (chain : Coin) (s t : TokenListType)
    (r : Read Model) (h : s ≠ t) :
    assetsIn lib
        { fs with
          tokenlist := fun p =>
            if p = lib.GetTokenListPath chain.Handle t then r else fs.tokenlist p }
        chain s =
      assetsIn lib fs chain s := by
  simp [assetsIn, tokenListPath_ne lib chain.Handle s t h]

/-- The files after a call: untouched; or the target path left unreadable by a failed
write; or the target path holding the tokens read from it followed by an entry for the
identifier, which the scan found in neither list (a successful write, or a failed one that
stored the record all the same). -/
theorem addToken_fs_cases (lib : Lib) (w : World) (fs : FS) (chain : Coin)
    (assetID tokenID : String) (tokenListType : TokenListType) :
    (AddTokenToTokenListJSON lib w fs chain assetID tokenID tokenListType).2 = fs ∨
    (∃ msg, (AddTokenToTokenListJSON lib w fs chain assetID tokenID tokenListType).2 =
      { fs with
        tokenlist := fun p =>
          if p = lib.GetTokenListPath chain.Handle tokenListType then Read.error msg
          else fs.tokenlist p }) ∨
    (∃ d e list written,
      fs.tokenlist (lib.GetTokenListPath chain.Handle TokenListType.TokenlistDefault) = Read.ok d ∧
      fs.tokenlist (lib.GetTokenListPath chain.Handle TokenListType.TokenlistExtended) = Read.ok e ∧
      hasAsset assetID d.Tokens = false ∧ hasAsset assetID e.Tokens = false ∧
      fs.tokenlist (lib.GetTokenListPath chain.Handle tokenListType) = Read.ok list ∧
      written.Tokens.map Token.Asset = list.Tokens.map Token.Asset ++ [assetID] ∧
      (AddTokenToTokenListJSON lib w fs chain assetID tokenID tokenListType).2 =
        { fs with
          tokenlist := fun p =>
            if p = lib.GetTokenListPath chain.Handle tokenListType then Read.ok written
            else fs.tokenlist p }) := by
  unfold AddTokenToTokenListJSON
  cases hscan : checkDuplicates lib fs chain assetID
      [TokenListType.TokenlistDefault, TokenListType.TokenlistExtended] with
  | some msg => exact Or.inl rfl
  | none =>
    obtain ⟨d, e, hd, he, hnd, hne⟩ := (checkDuplicates_eq_none_iff lib fs chain assetID).1 hscan
    cases hlist : fs.tokenlist (lib.GetTokenListPath chain.Handle tokenListType) with
    | error err => exact Or.inl (by simp [hlist])
    | ok list =>
      cases hget : getAssetInfo lib fs chain tokenID with
      | error err => exact Or.inl (by simp [hlist])
      | ok info =>
        rcases info with ⟨name, type, symbol, decimals, website, explorer, status, id, links, tags⟩
        cases type <;> cases id <;> cases name <;> cases symbol <;> cases decimals <;>
          try (apply Or.inl; simp [hlist]; done)
        rename_i type id name symbol decimals
        simp only [hlist, CreateJSONFile]
        cases hw : w.CreateJSONFile (lib.GetTokenListPath chain.Handle tokenListType) with
        | none =>
          refine Or.inr (Or.inr ⟨d, e, list, _, hd, he, hnd, hne, rfl, ?_, rfl⟩)
          simp
        | some f =>
          cases hb : f.after with
          | untouched => exact Or.inl (by simp [hb])
          | broken msg => exact Or.inr (Or.inl ⟨msg, by simp [hb]⟩)
          | stored =>
            simp only [hb]
            refine Or.inr (Or.inr ⟨d, e, list, _, hd, he, hnd, hne, rfl, ?_, rfl⟩)
            simp

/-- One call keeps every identifier at one occurrence at most. -/
theorem addToken_keeps_unique (lib : Lib) (w : World) (fs : FS) (chain : Coin)
    (assetID tokenID : String) (tokenListType : TokenListType)
    (h : ∀ a, occurrences lib fs chain a ≤ 1) (a : String) :
    occurrences lib (AddTokenToTokenListJSON lib w fs chain assetID tokenID tokenListType).2
      chain a ≤ 1 := by
  rcases addToken_fs_cases lib w fs chain assetID tokenID tokenListType with
    h1 | ⟨msg, h2⟩ | ⟨d, e, list, written, hd, he, hnd, hne, hlist, hwritten, hfs⟩
  · rw [h1]; exact h a
  · rw [h2]
    have ha := h a
    unfold occurrences at ha ⊢
    cases tokenListType
    · rw [assetsIn_update_self, assetsIn_update_other _ _ _ _ _ _ (by decide)]
      simp only [List.count_nil]
      omega
    · rw [assetsIn_update_self, assetsIn_update_other _ _ _ _ _ _ (by decide)]
      simp only [List.count_nil]
      omega
  · rw [hfs]
    have ha := h a
    have hcd : (d.Tokens.map Token.Asset).count assetID = 0 :=
      List.count_eq_zero.2 ((hasAsset_eq_false_iff_not_mem _ _).1 hnd)
    have hce : (e.Tokens.map Token.Asset).count assetID = 0 :=
      List.count_eq_zero.2 ((hasAsset_eq_false_iff_not_mem _ _).1 hne)
    unfold occurrences at ha ⊢
    rw [assetsIn_of_ok lib fs chain _ d hd, assetsIn_of_ok lib fs chain _ e he] at ha
    cases tokenListType
    · rw [hd] at hlist
      cases hlist
      rw [assetsIn_update_self, assetsIn_update_other _ _ _ _ _ _ (by decide),
        assetsIn_of_ok lib fs chain _ e he]
      simp only [hwritten, List.count_append]
      by_cases hEq : assetID = a
      · subst hEq
        simp [hcd, hce]
      · simp [List.count_cons, hEq]
        omega
    · rw [he] at hlist
      cases hlist
      rw [assetsIn_update_self, assetsIn_update_other _ _ _ _ _ _ (by decide),
        assetsIn_of_ok lib fs chain _ d hd]
      simp only [hwritten, List.count_append]
      by_cases hEq : assetID = a
      · subst hEq
        simp [hcd, hce]
      · simp [List.count_cons, hEq]
        omega

/-- C3: from a registry in which every asset identifier occurs at most once in the default
and the extended list of a chain taken together, after any sequence of
`AddTokenToTokenListJSON` calls on that chain (successful or not) every identifier still
occurs at most once in the two lists together: in at most one list, and once there. -/
theorem uniqueness_is_invariant (lib : Lib) (chain : Coin) (calls : List Call) (fs : FS)
    (h : ∀ a, occurrences lib fs chain a ≤ 1) :
    ∀ a, occurrences lib (runCalls lib chain fs calls) chain a ≤ 1 := by
  induction calls generalizing fs with
  | nil => exact h
  | cons c rest ih =>
    exact ih _ (addToken_keeps_unique lib c.w fs chain c.assetID c.tokenID c.tokenListType h)

/-- C3 on the example registry: both lists start empty, five calls follow, and the
identifier that was offered to both variants occurs at most once. -/
theorem uniqueness_is_invariant_witness :
    occurrences demoLib (runCalls demoLib ethereum demoFS demoCalls) ethereum "c60_t0xABC" ≤ 1 :=
  uniqueness_is_invariant demoLib ethereum demoCalls demoFS
    (fun _ => by simp [occurrences, assetsIn, demoFS, registry, demoLib, ethereum, listOf])
    "c60_t0xABC"

/-- What the five example calls leave: the repeated identifier and the record without
`type` add nothing, the other three identifiers are appended. -/
theorem runCalls_demoCalls :
    assetsIn demoLib (runCalls demoLib ethereum demoFS demoCalls) ethereum
        TokenListType.TokenlistDefault = ["c60_t0xABC", "c60_t0xBAR"] ∧
    assetsIn demoLib (runCalls demoLib ethereum demoFS demoCalls) ethereum
        TokenListType.TokenlistExtended = ["c60_t0xFOO"] := by
  decide

/-! ## Remote ingestion -/

theorem fetched_append (l1 l2 : List Event) : fetched (l1 ++ l2) = fetched l1 ++ fetched l2 := by
  simp [fetched]

theorem printed_append (l1 l2 : List Event) : printed (l1 ++ l2) = printed l1 ++ printed l2 := by
  simp [printed]

theorem visited_append (l1 l2 : List Event) : visited (l1 ++ l2) = visited l1 ++ visited l2 := by
  simp [visited]

/-- C7 (as amended): for every candidate that is created and whose logo directory can be
made, exactly one image is requested and its URL is the candidate's `originLogoURI`,
whether or not that is empty; `logoURI` is never the source. It is the source named by the
specification exactly when an override is supplied. -/
theorem logo_fetched_from_origin (lib : Lib) (w : World) (st : State) (chain : Coin)
    (token : RemoteAsset)
    (hdir : w.CreateDirPath (lib.GetAssetLogoPath chain.Handle token.Address) = none) :
    fetched (CreateAssetInfoJSONTemplateNew lib w st chain token).2.trace =
        fetched st.trace ++ [token.OriginLogoURI] ∧
      (token.OriginLogoURI ≠ "" →
        fetched (CreateAssetInfoJSONTemplateNew lib w st chain token).2.trace =
          fetched st.trace ++ [specLogoSource token]) := by
  have key : fetched (CreateAssetInfoJSONTemplateNew lib w st chain token).2.trace =
      fetched st.trace ++ [token.OriginLogoURI] := by
    unfold CreateAssetInfoJSONTemplateNew createLogo
    simp only [hdir]
    cases hpng : w.CreatePNGFromURL token.OriginLogoURI
        (lib.GetAssetLogoPath chain.Handle token.Address) with
    | error err => simp [State.emit, fetched]
    | ok png =>
      cases hcreate : w.CreateFileWithPath (lib.GetAssetInfoPath chain.Handle token.Address) with
      | some err => simp [State.emit, State.setLogo, fetched]
      | none =>
        cases hclose : w.Close (lib.GetAssetInfoPath chain.Handle token.Address) <;>
        cases hwrite : w.Write (lib.GetAssetInfoPath chain.Handle token.Address) <;>
        cases hformat : w.FormatJSONFile (lib.GetAssetInfoPath chain.Handle token.Address) <;>
        simp [writeAndFormat, hwrite, hformat, State.emit, State.setLogo, State.setInfo, fetched]
  refine ⟨key, fun hne => ?_⟩
  rw [key]
  simp [specLogoSource, hne]

/-- C7 on the example candidate `0xNEW`, which supplies an override. -/
theorem logo_fetched_from_origin_witness :
    fetched (CreateAssetInfoJSONTemplateNew demoLib calmWorld (freshRun demoFS) ethereum
        newAsset).2.trace = ["https://origin.example/new.png"] ∧
    fetched (CreateAssetInfoJSONTemplateNew demoLib calmWorld (freshRun demoFS) ethereum
        newAsset).2.trace = fetched (freshRun demoFS).trace ++ [specLogoSource newAsset] :=
  (fun h => ⟨h.1, h.2 (by decide)⟩)
    (logo_fetched_from_origin demoLib calmWorld (freshRun demoFS) ethereum newAsset (by decide))

/-- C7 as stated fails: the candidate `0xTWO` supplies no override, it has no record and
is created, its primary source URL is `https://cdn.example/0xTWO.png`, and the one image
request of the run carries the empty URL (and is refused). -/
theorem logo_requested_from_empty_override :
    twoAsset.OriginLogoURI = "" ∧
    specLogoSource twoAsset = "https://cdn.example/0xTWO.png" ∧
    getAssetInfo demoLib demoFS ethereum twoAsset.Address =
      Read.error "failed to read data from info.json: open: no such file or directory" ∧
    fetched (ingestAssets demoLib strictWorld 60 [twoAsset] (freshRun demoFS)).2.trace = [""] ∧
    fetched (ingestAssets demoLib strictWorld 60 [twoAsset] (freshRun demoFS)).2.trace ≠
      [specLogoSource twoAsset] ∧
    printed (ingestAssets demoLib strictWorld 60 [twoAsset] (freshRun demoFS)).2.trace =
      ["Create file failed:  0xTWO unsupported protocol scheme", "1"] := by
  decide

/-! ## The template record and the order of logo and record -/

/-- C8 (as amended): `CreateAssetInfoJSONTemplateNew` creates the logo first. When the logo
directory is made, the image is fetched, and the `info.json` file is created and written,
the record on disk has id = the candidate's address, the candidate's name, symbol and
decimals, type "coin", empty website, explorer and status, one link with empty name and
url, and the one tag "", and the image request precedes the creation and the write of the
file. When the logo cannot be created the error of the failed logo call is returned and
no file is created or changed, so no record is on disk. -/
theorem template_persisted_after_logo (lib : Lib) (w : World) (st : State) (chain : Coin)
    (token : RemoteAsset) :
    (∀ png,
      w.CreateDirPath (lib.GetAssetLogoPath chain.Handle token.Address) = none →
      w.CreatePNGFromURL token.OriginLogoURI (lib.GetAssetLogoPath chain.Handle token.Address) =
        Read.ok png →
      w.CreateFileWithPath (lib.GetAssetInfoPath chain.Handle token.Address) = none →
      w.Write (lib.GetAssetInfoPath chain.Handle token.Address) = none →
      (CreateAssetInfoJSONTemplateNew lib w st chain token).2.fs.info
          (lib.GetAssetInfoPath chain.Handle token.Address) =
        Read.ok
          { Name := some token.Name
            Type_ := some "coin"
            Symbol := some token.Symbol
            Decimals := some token.Decimals
            Website := some ""
            Explorer := some ""
            Status := some ""
            ID := some token.Address
            Links := [{ Name := some "", URL := some "" }]
            Tags := [""] } ∧
      ∃ later,
        (CreateAssetInfoJSONTemplateNew lib w st chain token).2.trace =
          st.trace ++
            [Event.CreateDirPath (lib.GetAssetLogoPath chain.Handle token.Address),
              Event.CreatePNGFromURL token.OriginLogoURI
                (lib.GetAssetLogoPath chain.Handle token.Address),
              Event.CreateFileWithPath (lib.GetAssetInfoPath chain.Handle token.Address),
              Event.Write (lib.GetAssetInfoPath chain.Handle token.Address)] ++ later) ∧
    ((w.CreateDirPath (lib.GetAssetLogoPath chain.Handle token.Address) ≠ none ∨
        ∃ err, w.CreatePNGFromURL token.OriginLogoURI
          (lib.GetAssetLogoPath chain.Handle token.Address) = Read.error err) →
      (CreateAssetInfoJSONTemplateNew lib w st chain token).2.fs = st.fs ∧
      ∃ err, (CreateAssetInfoJSONTemplateNew lib w st chain token).1 = Result.error err ∧
        (w.CreateDirPath (lib.GetAssetLogoPath chain.Handle token.Address) = some err ∨
          (w.CreateDirPath (lib.GetAssetLogoPath chain.Handle token.Address) = none ∧
            w.CreatePNGFromURL token.OriginLogoURI
              (lib.GetAssetLogoPath chain.Handle token.Address) = Read.error err))) := by
  constructor
  · intro png hdir hpng hcreate hwrite
    unfold CreateAssetInfoJSONTemplateNew createLogo
    cases hclose : w.Close (lib.GetAssetInfoPath chain.Handle token.Address) <;>
    cases hformat : w.FormatJSONFile (lib.GetAssetInfoPath chain.Handle token.Address) <;>
    simp [hdir, hpng, hcreate, hclose, writeAndFormat, hwrite, hformat, State.emit,
      State.setLogo, State.setInfo, assetInfoModel]
  · intro hfail
    unfold CreateAssetInfoJSONTemplateNew createLogo
    cases hdir : w.CreateDirPath (lib.GetAssetLogoPath chain.Handle token.Address) with
    | some err => simp [hdir, State.emit]
    | none =>
      rcases hfail with h | ⟨err, h⟩
      · exact absurd hdir h
      · simp [hdir, h, State.emit]

/-- C8 on the example candidate `0xNEW`: created in the calm world, and left without a
record in the world where no image can be fetched. -/
theorem template_persisted_after_logo_witness :
    (CreateAssetInfoJSONTemplateNew demoLib calmWorld (freshRun demoFS) ethereum
        newAsset).2.fs.info (demoLib.GetAssetInfoPath ethereum.Handle newAsset.Address) =
      Read.ok
        { Name := some "New", Type_ := some "coin", Symbol := some "NEW",
          Decimals := some (int 18), Website := some "", Explorer := some "",
          Status := some "", ID := some "0xNEW", Links := [{ Name := some "", URL := some "" }],
          Tags := [""] } ∧
    (CreateAssetInfoJSONTemplateNew demoLib offlineWorld (freshRun demoFS) ethereum
        newAsset).2.fs = (freshRun demoFS).fs :=
  ⟨((template_persisted_after_logo demoLib calmWorld (freshRun demoFS) ethereum newAsset).1
      "https://origin.example/new.png" (by decide) (by decide) (by decide) (by decide)).1,
    ((template_persisted_after_logo demoLib offlineWorld (freshRun demoFS) ethereum newAsset).2
      (Or.inr ⟨"no route to host", by decide⟩)).1⟩

/-- C8 as stated fails: the candidate `0xNEW` has no record, the image fetch fails, and
after the run no record is on disk: the only calls are the directory creation and the
image request, followed by the failure line and the count. -/
theorem record_absent_when_logo_fails :
    getAssetInfo demoLib demoFS ethereum newAsset.Address =
      Read.error "failed to read data from info.json: open: no such file or directory" ∧
    (ingestAssets demoLib offlineWorld 60 [newAsset] (freshRun demoFS)).2.fs.info
        (demoLib.GetAssetInfoPath ethereum.Handle newAsset.Address) =
      Read.error "open: no such file or directory" ∧
    (ingestAssets demoLib offlineWorld 60 [newAsset] (freshRun demoFS)).2.trace =
      [Event.getAssetInfo "ethereum/assets/0xNEW/info.json",
        Event.CreateDirPath "ethereum/assets/0xNEW/logo.png",
        Event.CreatePNGFromURL "https://origin.example/new.png" "ethereum/assets/0xNEW/logo.png",
        Event.Println "Create file failed:  0xNEW no route to host",
        Event.Println "1"] := by
  decide

/-! ## The loop over the candidates -/

/-- The creation of a candidate prints nothing and looks up no record. -/
theorem create_trace_quiet (lib : Lib) (w : World) (st : State) (chain : Coin)
    (token : RemoteAsset) :
    printed (CreateAssetInfoJSONTemplateNew lib w st chain token).2.trace = printed st.trace ∧
    visited (CreateAssetInfoJSONTemplateNew lib w st chain token).2.trace = visited st.trace := by
  unfold CreateAssetInfoJSONTemplateNew createLogo
  cases hdir : w.CreateDirPath (lib.GetAssetLogoPath chain.Handle token.Address) <;>
  cases hpng : w.CreatePNGFromURL token.OriginLogoURI
      (lib.GetAssetLogoPath chain.Handle token.Address) <;>
  cases hcreate : w.CreateFileWithPath (lib.GetAssetInfoPath chain.Handle token.Address) <;>
  cases hclose : w.Close (lib.GetAssetInfoPath chain.Handle token.Address) <;>
  cases hwrite : w.Write (lib.GetAssetInfoPath chain.Handle token.Address) <;>
  cases hformat : w.FormatJSONFile (lib.GetAssetInfoPath chain.Handle token.Address) <;>
  simp [hdir, hpng, hcreate, hclose, writeAndFormat, hwrite, hformat, State.emit,
    State.setLogo, State.setInfo, printed, visited]

/-- The result of a creation and the files it leaves do not depend on the calls made
before it. -/
theorem create_frame (lib : Lib) (w : World) (st : State) (chain : Coin) (token : RemoteAsset) :
    (CreateAssetInfoJSONTemplateNew lib w st chain token).1 =
        (CreateAssetInfoJSONTemplateNew lib w (freshRun st.fs) chain token).1 ∧
    (CreateAssetInfoJSONTemplateNew lib w st chain token).2.fs =
        (CreateAssetInfoJSONTemplateNew lib w (freshRun st.fs) chain token).2.fs := by
  unfold CreateAssetInfoJSONTemplateNew createLogo
  cases hdir : w.CreateDirPath (lib.GetAssetLogoPath chain.Handle token.Address) <;>
  cases hpng : w.CreatePNGFromURL token.OriginLogoURI
      (lib.GetAssetLogoPath chain.Handle token.Address) <;>
  cases hcreate : w.CreateFileWithPath (lib.GetAssetInfoPath chain.Handle token.Address) <;>
  cases hclose : w.Close (lib.GetAssetInfoPath chain.Handle token.Address) <;>
  cases hwrite : w.Write (lib.GetAssetInfoPath chain.Handle token.Address) <;>
  cases hformat : w.FormatJSONFile (lib.GetAssetInfoPath chain.Handle token.Address) <;>
  simp [hdir, hpng, hcreate, hclose, writeAndFormat, hwrite, hformat, State.emit,
    State.setLogo, State.setInfo, freshRun]

/-- A creation returns nil or an error, or its deferred close has failed: then the close
of the record file is among the calls made and the result is `log.Fatal`. -/
theorem create_result_cases (lib : Lib) (w : World) (st : State) (chain : Coin)
    (token : RemoteAsset) :
    (CreateAssetInfoJSONTemplateNew lib w st chain token).1 = Result.ok ∨
    (∃ err, (CreateAssetInfoJSONTemplateNew lib w st chain token).1 = Result.error err) ∨
    ∃ err,
      (CreateAssetInfoJSONTemplateNew lib w st chain token).1 = Result.fatal err ∧
      lib.GetAssetInfoPath chain.Handle token.Address ∈
        closed (CreateAssetInfoJSONTemplateNew lib w st chain token).2.trace ∧
      w.Close (lib.GetAssetInfoPath chain.Handle token.Address) = some err := by
  unfold CreateAssetInfoJSONTemplateNew createLogo
  cases hdir : w.CreateDirPath (lib.GetAssetLogoPath chain.Handle token.Address) <;>
  cases hpng : w.CreatePNGFromURL token.OriginLogoURI
      (lib.GetAssetLogoPath chain.Handle token.Address) <;>
  cases hcreate : w.CreateFileWithPath (lib.GetAssetInfoPath chain.Handle token.Address) <;>
  cases hclose : w.Close (lib.GetAssetInfoPath chain.Handle token.Address) <;>
  cases hwrite : w.Write (lib.GetAssetInfoPath chain.Handle token.Address) <;>
  cases hformat : w.FormatJSONFile (lib.GetAssetInfoPath chain.Handle token.Address) <;>
  simp [hdir, hpng, hcreate, hclose, writeAndFormat, hwrite, hformat, State.emit,
    State.setLogo, State.setInfo, closed]

theorem closed_append (l1 l2 : List Event) : closed (l1 ++ l2) = closed l1 ++ closed l2 := by
  simp [closed]

theorem owedReport_append (lib : Lib) (w : World) (chain : Nat) (pre post : List RemoteAsset)
    (fs : FS) :
    owedReport lib w chain (pre ++ post) fs =
      owedReport lib w chain pre fs ++
        owedReport lib w chain post (pre.foldl (filesAfter lib w chain) fs) := by
  induction pre generalizing fs with
  | nil => simp [owedReport]
  | cons a rest ih => simp [owedReport, ih]

/-- The loop, whatever the world: either it runs to its end, having looked up every
candidate once and in order, printed exactly the lines owed and left the files the
candidates leave in turn; or a close that was made has failed. -/
theorem rangeAssets_report (lib : Lib) (w : World) (chain : Nat) (assets : List RemoteAsset)
    (st : State) :
    ((rangeAssets lib w chain assets st).1 = Result.ok ∧
      visited (rangeAssets lib w chain assets st).2.trace =
        visited st.trace ++
          assets.map (fun a => lib.GetAssetInfoPath (coinOf lib chain).Handle a.Address) ∧
      printed (rangeAssets lib w chain assets st).2.trace =
        printed st.trace ++ owedReport lib w chain assets st.fs ∧
      (rangeAssets lib w chain assets st).2.fs = assets.foldl (filesAfter lib w chain) st.fs) ∨
    ∃ p err,
      p ∈ closed (rangeAssets lib w chain assets st).2.trace ∧ w.Close p = some err := by
  induction assets generalizing st with
  | nil => exact Or.inl ⟨rfl, by simp [rangeAssets], by simp [rangeAssets, owedReport], rfl⟩
  | cons a rest ih =>
    cases hget : getAssetInfo lib st.fs (coinOf lib chain) a.Address with
    | ok m =>
      have hstep : rangeAssets lib w chain (a :: rest) st =
          rangeAssets lib w chain rest
            ((st.emit (Event.getAssetInfo
              (lib.GetAssetInfoPath (coinOf lib chain).Handle a.Address))).emit
                (Event.Println ("Create info.json succeed for:  " ++ a.Address))) := by
        simp [rangeAssets, State.emit, hget]
      rw [hstep]
      rcases ih ((st.emit (Event.getAssetInfo
          (lib.GetAssetInfoPath (coinOf lib chain).Handle a.Address))).emit
            (Event.Println ("Create info.json succeed for:  " ++ a.Address))) with
        ⟨h1, h2, h3, h4⟩ | hfatal
      · refine Or.inl ⟨h1, ?_, ?_, ?_⟩
        · rw [h2]; simp [State.emit, visited]
        · rw [h3]; simp [State.emit, printed, owedReport, owedLines, filesAfter, hget, knownLine]
        · rw [h4]; simp [State.emit, filesAfter, hget]
      · exact Or.inr hfatal
    | error msg =>
      have hq := create_trace_quiet lib w
        (st.emit (Event.getAssetInfo (lib.GetAssetInfoPath (coinOf lib chain).Handle a.Address)))
        (coinOf lib chain) a
      have hf := create_frame lib w
        (st.emit (Event.getAssetInfo (lib.GetAssetInfoPath (coinOf lib chain).Handle a.Address)))
        (coinOf lib chain) a
      have hc := create_result_cases lib w
        (st.emit (Event.getAssetInfo (lib.GetAssetInfoPath (coinOf lib chain).Handle a.Address)))
        (coinOf lib chain) a
      have hfs : (st.emit (Event.getAssetInfo
          (lib.GetAssetInfoPath (coinOf lib chain).Handle a.Address))).fs = st.fs := rfl
      rw [hfs] at hf
      cases hres : CreateAssetInfoJSONTemplateNew lib w
        (st.emit (Event.getAssetInfo (lib.GetAssetInfoPath (coinOf lib chain).Handle a.Address)))
        (coinOf lib chain) a with
      | mk r st2 =>
        rw [hres] at hq hf hc
        simp only at hq hf hc
        simp only [State.emit] at hres
        rcases hc with hr | ⟨err, hr⟩ | ⟨err, hr, htr, hcl⟩
        · subst hr
          have hstep : rangeAssets lib w chain (a :: rest) st = rangeAssets lib w chain rest st2 := by
            simp [rangeAssets, State.emit, hget, hres]
          rw [hstep]
          rcases ih st2 with ⟨h1, h2, h3, h4⟩ | hfatal
          · refine Or.inl ⟨h1, ?_, ?_, ?_⟩
            · rw [h2, hq.2]; simp [State.emit, visited]
            · rw [h3, hq.1, hf.2]
              simp [State.emit, printed, owedReport, owedLines, filesAfter, hget, ← hf.1]
            · rw [h4, hf.2]; simp [filesAfter, hget]
          · exact Or.inr hfatal
        · subst hr
          have hstep : rangeAssets lib w chain (a :: rest) st =
              rangeAssets lib w chain rest
                (st2.emit (Event.Println ("Create file failed:  " ++ a.Address ++ " " ++ err))) := by
            simp [rangeAssets, State.emit, hget, hres]
          rw [hstep]
          rcases ih (st2.emit
              (Event.Println ("Create file failed:  " ++ a.Address ++ " " ++ err))) with
            ⟨h1, h2, h3, h4⟩ | hfatal
          · refine Or.inl ⟨h1, ?_, ?_, ?_⟩
            · rw [h2]; simp [State.emit, visited_append, hq.2]; simp [State.emit, visited]
            · rw [h3]
              simp [State.emit, printed_append, hq.1, hf.2, owedReport, owedLines, filesAfter,
                hget, ← hf.1, failedLine]
              simp [State.emit, printed]
            · rw [h4]; simp [State.emit, hf.2, filesAfter, hget]
          · exact Or.inr hfatal
        · subst hr
          have hstep : rangeAssets lib w chain (a :: rest) st = (Result.fatal err, st2) := by
            simp [rangeAssets, State.emit, hget, hres]
          rw [hstep]
          exact Or.inr ⟨_, err, htr, hcl⟩

/-! ## Isolation of per-candidate failures -/

/-- C9 (as amended): when no close of a created record file fails in the run, the loop of
`handleAsyncTokenList` runs to its end whatever creation errors occur. Every candidate of
the feed is looked up exactly once, in the order received. The output is exactly, for each
candidate in turn, its found line when its record is read, one failure line naming its
address and carrying the error when its creation returns an error, and no line when it is
created, followed by the number of candidates in the feed; in particular a candidate whose
creation returns an error has its failure line printed. Each candidate is handled on the
files the candidates before it have left. -/
theorem ingest_isolates_failures (lib : Lib) (w : World) (chain : Nat)
    (assets : List RemoteAsset) (fs : FS)
    (hclose : ∀ p ∈ closed (ingestAssets lib w chain assets (freshRun fs)).2.trace,
      w.Close p = none) :
    (ingestAssets lib w chain assets (freshRun fs)).1 = Result.ok ∧
    visited (ingestAssets lib w chain assets (freshRun fs)).2.trace =
      assets.map (fun a => lib.GetAssetInfoPath (coinOf lib chain).Handle a.Address) ∧
    printed (ingestAssets lib w chain assets (freshRun fs)).2.trace =
      owedReport lib w chain assets fs ++ [toString assets.length] ∧
    (ingestAssets lib w chain assets (freshRun fs)).2.fs =
      assets.foldl (filesAfter lib w chain) fs ∧
    ∀ pre a post msg, assets = pre ++ a :: post →
      getAssetInfo lib (pre.foldl (filesAfter lib w chain) fs) (coinOf lib chain) a.Address =
        Read.error msg →
      ∀ cause,
        (CreateAssetInfoJSONTemplateNew lib w (freshRun (pre.foldl (filesAfter lib w chain) fs))
          (coinOf lib chain) a).1 = Result.error cause →
        printed (ingestAssets lib w chain assets (freshRun fs)).2.trace =
          owedReport lib w chain pre fs ++ [failedLine a cause] ++
            owedReport lib w chain post
              ((pre ++ [a]).foldl (filesAfter lib w chain) fs) ++
            [toString assets.length] := by
  have hprinted : ∀ pre a post msg, assets = pre ++ a :: post →
      getAssetInfo lib (pre.foldl (filesAfter lib w chain) fs) (coinOf lib chain) a.Address =
        Read.error msg →
      ∀ cause,
        (CreateAssetInfoJSONTemplateNew lib w (freshRun (pre.foldl (filesAfter lib w chain) fs))
          (coinOf lib chain) a).1 = Result.error cause →
        owedReport lib w chain assets fs =
          owedReport lib w chain pre fs ++ [failedLine a cause] ++
            owedReport lib w chain post
              ((pre ++ [a]).foldl (filesAfter lib w chain) fs) := by
    intro pre a post err hsplit hget cause hcause
    rw [hsplit, owedReport_append]
    simp [owedReport, owedLines, hget, hcause, List.foldl_append]
  rcases rangeAssets_report lib w chain assets (freshRun fs) with
    ⟨h1, h2, h3, h4⟩ | ⟨p, err, htr, hcl⟩
  · cases hres : rangeAssets lib w chain assets (freshRun fs) with
    | mk r st1 =>
      rw [hres] at h1 h2 h3 h4
      have htrace : (freshRun fs).trace = [] := rfl
      have hfiles : (freshRun fs).fs = fs := rfl
      simp only [htrace, hfiles] at h1 h2 h3 h4
      subst h1
      have hpr : printed (ingestAssets lib w chain assets (freshRun fs)).2.trace =
          owedReport lib w chain assets fs ++ [toString assets.length] := by
        simp [ingestAssets, hres, State.emit, printed_append, h3]
        simp [printed]
      refine ⟨by simp [ingestAssets, hres], ?_, hpr, ?_, ?_⟩
      · simp [ingestAssets, hres, State.emit, visited_append, h2]
        simp [visited]
      · simp [ingestAssets, hres, State.emit, h4]
      · intro pre a post err hsplit hget cause hcause
        rw [hpr, hprinted pre a post err hsplit hget cause hcause]
  · exfalso
    have hsame : (ingestAssets lib w chain assets (freshRun fs)).2.trace =
        (rangeAssets lib w chain assets (freshRun fs)).2.trace ∨
        (rangeAssets lib w chain assets (freshRun fs)).1 = Result.ok := by
      unfold ingestAssets
      cases hres : rangeAssets lib w chain assets (freshRun fs) with
      | mk r st1 => cases r <;> simp
    have hmem : p ∈ closed (ingestAssets lib w chain assets (freshRun fs)).2.trace := by
      rcases hsame with hs | hok
      · rw [hs]; exact htr
      · have : (ingestAssets lib w chain assets (freshRun fs)).2.trace =
            (rangeAssets lib w chain assets (freshRun fs)).2.trace ++
              [Event.Println (toString assets.length)] := by
          unfold ingestAssets
          cases hres : rangeAssets lib w chain assets (freshRun fs) with
          | mk r st1 =>
            rw [hres] at hok
            simp only at hok
            subst hok
            simp [State.emit]
        rw [this, closed_append]; exact List.mem_append_left _ htr
    have := hclose p hmem
    rw [hcl] at this
    cases this

/-- C9 on a feed whose first candidate fails (no override URL, the image request is
refused) and whose second candidate is created: the failure of `0xTWO` is printed with its
address and its error, `0xNEW` is looked up and created after it, and the count is 2. -/
theorem ingest_isolates_failures_witness :
    (ingestAssets demoLib strictWorld 60 [twoAsset, newAsset] (freshRun demoFS)).1 = Result.ok ∧
    visited (ingestAssets demoLib strictWorld 60 [twoAsset, newAsset] (freshRun demoFS)).2.trace =
      ["ethereum/assets/0xTWO/info.json", "ethereum/assets/0xNEW/info.json"] ∧
    printed (ingestAssets demoLib strictWorld 60 [twoAsset, newAsset]
        (freshRun demoFS)).2.trace =
      ["Create file failed:  0xTWO unsupported protocol scheme", "2"] :=
  (fun h => ⟨h.1, h.2.1.trans (by decide), h.2.2.1.trans (by decide)⟩)
    (ingest_isolates_failures demoLib strictWorld 60 [twoAsset, newAsset] demoFS
      (fun _ _ => rfl))

/-- A run in which the first candidate fails and the second is created, line by line: the
failure of `0xTWO` is reported, `0xNEW` is created after it, and the count is 2. -/
theorem ingest_strictWorld_trace :
    printed (ingestAssets demoLib strictWorld 60 [twoAsset, newAsset]
        (freshRun demoFS)).2.trace =
      ["Create file failed:  0xTWO unsupported protocol scheme", "2"] ∧
    (ingestAssets demoLib strictWorld 60 [twoAsset, newAsset] (freshRun demoFS)).2.fs.info
        "ethereum/assets/0xNEW/info.json" = Read.ok (assetInfoModel newAsset) ∧
    (ingestAssets demoLib strictWorld 60 [twoAsset, newAsset] (freshRun demoFS)).2.fs.info
        "ethereum/assets/0xTWO/info.json" = Read.error "open: no such file or directory" := by
  decide

/-- C9 as stated fails: closing the record of the first candidate fails, `log.Fatal` ends
the process, the second candidate of the feed is never looked up and no count is printed. -/
theorem close_failure_ends_the_run :
    demoFeed.length = 2 ∧
    (ingestAssets demoLib closeFailWorld 60 demoFeed (freshRun demoFS)).1 =
      Result.fatal "close: input/output error" ∧
    visited (ingestAssets demoLib closeFailWorld 60 demoFeed (freshRun demoFS)).2.trace =
      ["ethereum/assets/0xNEW/info.json"] ∧
    printed (ingestAssets demoLib closeFailWorld 60 demoFeed (freshRun demoFS)).2.trace = [] := by
  decide

/-! ## Running the ingestion twice -/

/-- The loop over candidates that are all found changes no file and makes no call other
than the lookups and the found lines. -/
theorem rangeAssets_all_known (lib : Lib) (w : World) (chain : Nat) (assets : List RemoteAsset)
    (st : State)
    (hall : ∀ a ∈ assets, ∃ m,
      st.fs.info (lib.GetAssetInfoPath (coinOf lib chain).Handle a.Address) = Read.ok m) :
    rangeAssets lib w chain assets st =
      (Result.ok, { fs := st.fs, trace := st.trace ++ knownTrace lib chain assets }) := by
  induction assets generalizing st with
  | nil => simp [rangeAssets, knownTrace]
  | cons a rest ih =>
    obtain ⟨m, hm⟩ := hall a (List.mem_cons_self _ _)
    have hrest := ih
      ((st.emit (Event.getAssetInfo
        (lib.GetAssetInfoPath (coinOf lib chain).Handle a.Address))).emit
          (Event.Println ("Create info.json succeed for:  " ++ a.Address)))
      (fun b hb => hall b (List.mem_cons_of_mem _ hb))
    simp only [rangeAssets, State.emit, getAssetInfo, hm]
    simp only [State.emit] at hrest
    rw [hrest]
    simp [knownTrace, knownLine]

theorem printed_knownTrace (lib : Lib) (chain : Nat) (assets : List RemoteAsset) :
    printed (knownTrace lib chain assets) = assets.map knownLine := by
  induction assets with
  | nil => rfl
  | cons a rest ih =>
    have hcons : knownTrace lib chain (a :: rest) =
        [Event.getAssetInfo (lib.GetAssetInfoPath (coinOf lib chain).Handle a.Address),
          Event.Println (knownLine a)] ++ knownTrace lib chain rest := by
      simp [knownTrace]
    rw [hcons, printed_append, ih]
    simp [printed]

/-- C6 (as amended): when the first run of `handleAsyncTokenList` over a feed leaves a
readable record for every candidate of the feed, a second run with the same feed reports
every address as found, prints the count, and creates or changes no file: its only calls
are the lookups and the printed lines, and the registry after it is the registry after the
first run. -/
theorem second_run_finds_all (lib : Lib) (w : World) (fs : FS) (chain : Nat) (url : String)
    (assets : List RemoteAsset)
    (hget : w.Get url = Read.ok assets)
    (hall : ∀ a ∈ assets, ∃ m,
      (handleAsyncTokenList lib w (freshRun fs) chain url).2.fs.info
        (lib.GetAssetInfoPath (coinOf lib chain).Handle a.Address) = Read.ok m) :
    (handleAsyncTokenList lib w
        (freshRun (handleAsyncTokenList lib w (freshRun fs) chain url).2.fs) chain url).2 =
      { fs := (handleAsyncTokenList lib w (freshRun fs) chain url).2.fs
        trace := knownTrace lib chain assets ++ [Event.Println (toString assets.length)] } ∧
    printed (handleAsyncTokenList lib w
        (freshRun (handleAsyncTokenList lib w (freshRun fs) chain url).2.fs) chain url).2.trace =
      assets.map knownLine ++ [toString assets.length] := by
  have hloop := rangeAssets_all_known lib w chain assets
    (freshRun (handleAsyncTokenList lib w (freshRun fs) chain url).2.fs) hall
  have hstate : (handleAsyncTokenList lib w
        (freshRun (handleAsyncTokenList lib w (freshRun fs) chain url).2.fs) chain url).2 =
      { fs := (handleAsyncTokenList lib w (freshRun fs) chain url).2.fs
        trace := knownTrace lib chain assets ++ [Event.Println (toString assets.length)] } := by
    generalize (handleAsyncTokenList lib w (freshRun fs) chain url).2.fs = fs1 at hloop ⊢
    unfold handleAsyncTokenList ingestAssets
    simp only [hget, hloop]
    cases hbody : w.CloseBody url <;> simp [State.emit, freshRun]
  refine ⟨hstate, ?_⟩
  rw [hstate]
  simp [printed_append, printed_knownTrace]
  simp [printed]

/-- C6 on the example feed in the world where no call fails: the first run creates both
records, the second finds both. -/
theorem second_run_finds_all_witness :
    calmWorld.Get "https://feed.example/tokens.json" = Read.ok demoFeed ∧
    (handleAsyncTokenList demoLib calmWorld
        (freshRun (handleAsyncTokenList demoLib calmWorld (freshRun demoFS) 60
          "https://feed.example/tokens.json").2.fs) 60 "https://feed.example/tokens.json").2 =
      { fs := (handleAsyncTokenList demoLib calmWorld (freshRun demoFS) 60
          "https://feed.example/tokens.json").2.fs
        trace := knownTrace demoLib 60 demoFeed ++ [Event.Println (toString demoFeed.length)] } ∧
    printed (handleAsyncTokenList demoLib calmWorld
        (freshRun (handleAsyncTokenList demoLib calmWorld (freshRun demoFS) 60
          "https://feed.example/tokens.json").2.fs) 60
        "https://feed.example/tokens.json").2.trace =
      demoFeed.map knownLine ++ [toString demoFeed.length] :=
  ⟨rfl,
    second_run_finds_all demoLib calmWorld demoFS 60 "https://feed.example/tokens.json" demoFeed
      rfl
      (fun a ha => by
        simp only [demoFeed, List.mem_cons, List.mem_singleton, List.not_mem_nil, or_false] at ha
        rcases ha with rfl | rfl
        · exact ⟨assetInfoModel newAsset, by decide⟩
        · exact ⟨assetInfoModel twoAsset, by decide⟩)⟩

/-- C6 as stated fails: in a world where no image can be fetched the first run creates no
record, and the second run with the same feed reports neither address as found: it tries
both creations again and prints two failure lines. -/
theorem second_run_retries_failures :
    offlineWorld.Get "https://feed.example/tokens.json" = Read.ok demoFeed ∧
    printed (handleAsyncTokenList demoLib offlineWorld
        (freshRun (handleAsyncTokenList demoLib offlineWorld (freshRun demoFS) 60
          "https://feed.example/tokens.json").2.fs) 60
        "https://feed.example/tokens.json").2.trace =
      ["Create file failed:  0xNEW no route to host",
        "Create file failed:  0xTWO no route to host", "2"] ∧
    printed (handleAsyncTokenList demoLib offlineWorld
        (freshRun (handleAsyncTokenList demoLib offlineWorld (freshRun demoFS) 60
          "https://feed.example/tokens.json").2.fs) 60
        "https://feed.example/tokens.json").2.trace ≠
      demoFeed.map knownLine ++ [toString demoFeed.length] ∧
    fetched (handleAsyncTokenList demoLib offlineWorld
        (freshRun (handleAsyncTokenList demoLib offlineWorld (freshRun demoFS) 60
          "https://feed.example/tokens.json").2.fs) 60
        "https://feed.example/tokens.json").2.trace =
      ["https://origin.example/new.png", ""] := by
  decide

/-! ## Records that exist are never rewritten -/

theorem getAssetInfo_eq_error_iff (lib : Lib) (fs : FS) (chain : Coin) (tokenID : String) :
    (∃ msg, getAssetInfo lib fs chain tokenID = Read.error msg) ↔
      ∃ err, fs.info (lib.GetAssetInfoPath chain.Handle tokenID) = Read.error err := by
  unfold getAssetInfo
  cases h : fs.info (lib.GetAssetInfoPath chain.Handle tokenID) <;> simp [h]

/-- The creation of a candidate leaves every other `info.json` as it reads. -/
theorem create_keeps_other_records (lib : Lib) (w : World) (st : State) (chain : Coin)
    (token : RemoteAsset) (p : String)
    (hp : p ≠ lib.GetAssetInfoPath chain.Handle token.Address) :
    (CreateAssetInfoJSONTemplateNew lib w st chain token).2.fs.info p = st.fs.info p := by
  unfold CreateAssetInfoJSONTemplateNew createLogo
  cases hdir : w.CreateDirPath (lib.GetAssetLogoPath chain.Handle token.Address) <;>
  cases hpng : w.CreatePNGFromURL token.OriginLogoURI
      (lib.GetAssetLogoPath chain.Handle token.Address) <;>
  cases hcreate : w.CreateFileWithPath (lib.GetAssetInfoPath chain.Handle token.Address) <;>
  cases hclose : w.Close (lib.GetAssetInfoPath chain.Handle token.Address) <;>
  cases hwrite : w.Write (lib.GetAssetInfoPath chain.Handle token.Address) <;>
  cases hformat : w.FormatJSONFile (lib.GetAssetInfoPath chain.Handle token.Address) <;>
  simp [hdir, hpng, hcreate, hclose, writeAndFormat, hwrite, hformat, State.emit,
    State.setLogo, State.setInfo, hp]

/-- The loop never changes a record that can be read: a candidate is created only when
its own `info.json` cannot be read. -/
theorem rangeAssets_keeps_records (lib : Lib) (w : World) (chain : Nat)
    (assets : List RemoteAsset) (st : State) (p : String) (m : AssetModel)
    (hp : st.fs.info p = Read.ok m) :
    (rangeAssets lib w chain assets st).2.fs.info p = Read.ok m := by
  induction assets generalizing st with
  | nil => simpa [rangeAssets] using hp
  | cons a rest ih =>
    cases hget : getAssetInfo lib st.fs (coinOf lib chain) a.Address with
    | ok found =>
      have hstep : rangeAssets lib w chain (a :: rest) st =
          rangeAssets lib w chain rest
            ((st.emit (Event.getAssetInfo
              (lib.GetAssetInfoPath (coinOf lib chain).Handle a.Address))).emit
                (Event.Println ("Create info.json succeed for:  " ++ a.Address))) := by
        simp [rangeAssets, State.emit, hget]
      rw [hstep]
      exact ih _ (by simpa [State.emit] using hp)
    | error msg =>
      obtain ⟨err, herr⟩ := (getAssetInfo_eq_error_iff lib st.fs (coinOf lib chain) a.Address).1
        ⟨msg, hget⟩
      have hne : p ≠ lib.GetAssetInfoPath (coinOf lib chain).Handle a.Address := by
        intro heq
        rw [heq, herr] at hp
        cases hp
      have hkeep := create_keeps_other_records lib w
        (st.emit (Event.getAssetInfo (lib.GetAssetInfoPath (coinOf lib chain).Handle a.Address)))
        (coinOf lib chain) a p hne
      cases hres : CreateAssetInfoJSONTemplateNew lib w
        (st.emit (Event.getAssetInfo (lib.GetAssetInfoPath (coinOf lib chain).Handle a.Address)))
        (coinOf lib chain) a with
      | mk r st2 =>
        rw [hres] at hkeep
        have hp2 : st2.fs.info p = Read.ok m := by
          rw [hkeep]; simpa [State.emit] using hp
        simp only [State.emit] at hres
        cases r with
        | ok =>
          have hstep : rangeAssets lib w chain (a :: rest) st = rangeAssets lib w chain rest st2 := by
            simp [rangeAssets, State.emit, hget, hres]
          rw [hstep]
          exact ih st2 hp2
        | error e =>
          have hstep : rangeAssets lib w chain (a :: rest) st =
              rangeAssets lib w chain rest
                (st2.emit (Event.Println ("Create file failed:  " ++ a.Address ++ " " ++ e))) := by
            simp [rangeAssets, State.emit, hget, hres]
          rw [hstep]
          exact ih _ (by simpa [State.emit] using hp2)
        | panic =>
          have hstep : rangeAssets lib w chain (a :: rest) st = (Result.panic, st2) := by
            simp [rangeAssets, State.emit, hget, hres]
          rw [hstep]
          exact hp2
        | fatal e =>
          have hstep : rangeAssets lib w chain (a :: rest) st = (Result.fatal e, st2) := by
            simp [rangeAssets, State.emit, hget, hres]
          rw [hstep]
          exact hp2

/-- In a world where, for every candidate of the feed, the logo directory is made, the
image is fetched, and the `info.json` file is created, written and closed, the loop leaves
a readable record for every candidate. -/
theorem rangeAssets_leaves_records (lib : Lib) (w : World) (chain : Nat)
    (assets : List RemoteAsset) (st : State)
    (hdir : ∀ a ∈ assets,
      w.CreateDirPath (lib.GetAssetLogoPath (coinOf lib chain).Handle a.Address) = none)
    (hpng : ∀ a ∈ assets, ∃ png,
      w.CreatePNGFromURL a.OriginLogoURI
        (lib.GetAssetLogoPath (coinOf lib chain).Handle a.Address) = Read.ok png)
    (hcreate : ∀ a ∈ assets,
      w.CreateFileWithPath (lib.GetAssetInfoPath (coinOf lib chain).Handle a.Address) = none)
    (hwrite : ∀ a ∈ assets,
      w.Write (lib.GetAssetInfoPath (coinOf lib chain).Handle a.Address) = none)
    (hclose : ∀ a ∈ assets,
      w.Close (lib.GetAssetInfoPath (coinOf lib chain).Handle a.Address) = none) :
    ∀ a ∈ assets, ∃ m,
      (rangeAssets lib w chain assets st).2.fs.info
        (lib.GetAssetInfoPath (coinOf lib chain).Handle a.Address) = Read.ok m := by
  induction assets generalizing st with
  | nil => intro a ha; cases ha
  | cons b rest ih =>
    have hb := List.mem_cons_self b rest
    have hsub : ∀ a, a ∈ rest → a ∈ b :: rest := fun a ha => List.mem_cons_of_mem _ ha
    have ihrest := fun st2 => ih st2 (fun a ha => hdir a (hsub a ha))
      (fun a ha => hpng a (hsub a ha)) (fun a ha => hcreate a (hsub a ha))
      (fun a ha => hwrite a (hsub a ha)) (fun a ha => hclose a (hsub a ha))
    -- the state in which the rest of the feed is processed, with the record of `b` readable
    have hhead : ∃ st2 mb, rangeAssets lib w chain (b :: rest) st = rangeAssets lib w chain rest st2 ∧
        st2.fs.info (lib.GetAssetInfoPath (coinOf lib chain).Handle b.Address) = Read.ok mb := by
      cases hget : getAssetInfo lib st.fs (coinOf lib chain) b.Address with
      | ok found =>
        refine ⟨_, found, by simp [rangeAssets, State.emit, hget]; rfl, ?_⟩
        simpa [State.emit] using (getAssetInfo_eq_ok_iff lib st.fs (coinOf lib chain) b.Address found).1 hget
      | error msg =>
        obtain ⟨png, hpngb⟩ := hpng b hb
        refine ⟨(CreateAssetInfoJSONTemplateNew lib w
          (st.emit (Event.getAssetInfo (lib.GetAssetInfoPath (coinOf lib chain).Handle b.Address)))
          (coinOf lib chain) b).2 |> fun s =>
            match w.FormatJSONFile (lib.GetAssetInfoPath (coinOf lib chain).Handle b.Address) with
            | none => s
            | some _ => s.emit (Event.Println
                ("Create file failed:  " ++ b.Address ++ " " ++ "failed to format json file")),
          assetInfoModel b, ?_, ?_⟩
        · cases hformat : w.FormatJSONFile
              (lib.GetAssetInfoPath (coinOf lib chain).Handle b.Address) <;>
          simp [rangeAssets, hget, CreateAssetInfoJSONTemplateNew, createLogo, hdir b hb, hpngb,
            hcreate b hb, hwrite b hb, hclose b hb, writeAndFormat, hformat, State.emit,
            State.setLogo, State.setInfo]
        · cases hformat : w.FormatJSONFile
              (lib.GetAssetInfoPath (coinOf lib chain).Handle b.Address) <;>
          simp [CreateAssetInfoJSONTemplateNew, createLogo, hdir b hb, hpngb,
            hcreate b hb, hwrite b hb, hclose b hb, writeAndFormat, hformat, State.emit,
            State.setLogo, State.setInfo]
    obtain ⟨st2, mb, hstep, hmb⟩ := hhead
    intro a ha
    rw [hstep]
    rcases List.mem_cons.1 ha with rfl | harest
    · exact ⟨mb, rangeAssets_keeps_records lib w chain rest st2 _ mb hmb⟩
    · exact ihrest st2 a harest


/-- A candidate without a readable record, whose logo is created and whose file is created
and written, has its template on disk at the end of the run over the feed, whatever
happens to the candidates after it. -/
theorem rangeAssets_persists_template (lib : Lib) (w : World) (chain : Nat) (a : RemoteAsset)
    (rest : List RemoteAsset) (st : State) (msg png : String)
    (hmissing : getAssetInfo lib st.fs (coinOf lib chain) a.Address = Read.error msg)
    (hdir : w.CreateDirPath (lib.GetAssetLogoPath (coinOf lib chain).Handle a.Address) = none)
    (hpng : w.CreatePNGFromURL a.OriginLogoURI
      (lib.GetAssetLogoPath (coinOf lib chain).Handle a.Address) = Read.ok png)
    (hcreate : w.CreateFileWithPath
      (lib.GetAssetInfoPath (coinOf lib chain).Handle a.Address) = none)
    (hwrite : w.Write (lib.GetAssetInfoPath (coinOf lib chain).Handle a.Address) = none) :
    (rangeAssets lib w chain (a :: rest) st).2.fs.info
        (lib.GetAssetInfoPath (coinOf lib chain).Handle a.Address) =
      Read.ok (assetInfoModel a) := by
  have hrec : (CreateAssetInfoJSONTemplateNew lib w
      (st.emit (Event.getAssetInfo (lib.GetAssetInfoPath (coinOf lib chain).Handle a.Address)))
      (coinOf lib chain) a).2.fs.info
        (lib.GetAssetInfoPath (coinOf lib chain).Handle a.Address) =
      Read.ok (assetInfoModel a) := by
    unfold CreateAssetInfoJSONTemplateNew createLogo
    cases hclose : w.Close (lib.GetAssetInfoPath (coinOf lib chain).Handle a.Address) <;>
    cases hformat : w.FormatJSONFile (lib.GetAssetInfoPath (coinOf lib chain).Handle a.Address) <;>
    simp [hdir, hpng, hcreate, hclose, writeAndFormat, hwrite, hformat, State.emit,
      State.setLogo, State.setInfo]
  cases hres : CreateAssetInfoJSONTemplateNew lib w
    (st.emit (Event.getAssetInfo (lib.GetAssetInfoPath (coinOf lib chain).Handle a.Address)))
    (coinOf lib chain) a with
  | mk r st2 =>
    rw [hres] at hrec
    simp only [State.emit] at hres
    cases r with
    | ok =>
      have hstep : rangeAssets lib w chain (a :: rest) st = rangeAssets lib w chain rest st2 := by
        simp [rangeAssets, State.emit, hmissing, hres]
      rw [hstep]
      exact rangeAssets_keeps_records lib w chain rest st2 _ _ hrec
    | error e =>
      have hstep : rangeAssets lib w chain (a :: rest) st =
          rangeAssets lib w chain rest
            (st2.emit (Event.Println ("Create file failed:  " ++ a.Address ++ " " ++ e))) := by
        simp [rangeAssets, State.emit, hmissing, hres]
      rw [hstep]
      exact rangeAssets_keeps_records lib w chain rest _ _ _ (by simpa [State.emit] using hrec)
    | panic =>
      have hstep : rangeAssets lib w chain (a :: rest) st = (Result.panic, st2) := by
        simp [rangeAssets, State.emit, hmissing, hres]
      rw [hstep]
      exact hrec
    | fatal e =>
      have hstep : rangeAssets lib w chain (a :: rest) st = (Result.fatal e, st2) := by
        simp [rangeAssets, State.emit, hmissing, hres]
      rw [hstep]
      exact hrec

end Manager
